import Mathlib

/-!
# Guest list and venue seating (cmd/app/model.go, cmd/app/app.go)

A shallow embedding of the seat-accounting code of the guest-list service.

* The MySQL database is an explicit value `Store`: the rows of `venue` and
  `guestlist` in primary-key order, the AUTO_INCREMENT counter of `venue`
  and the SQL mode.  The schema is the one of `main_test.go`
  (`VenueCreationQuery`, `GuestListCreationQuery`); the constraints it puts
  on a state of the store are collected in `Store.WF`.
* What the statements depend on in the server and is not fixed by the
  repository is a parameter `Server`: the collation under which the
  `guest_name` column compares names (case-insensitive for the utf8 default),
  given by a key function, whether the server fills a TIMESTAMP column
  by itself on INSERT (the tests expect it to) or leaves it NULL, and what
  is kept, without strict mode, of a name with a character the column
  cannot hold.
* Every function of `model.go` that takes `db *sql.DB` becomes a function
  of the server and the store; the ones that execute a statement return the
  new store next to the Go `error` (`none` is `nil`).  On an error the store
  is returned as it was.
* The Go type `int` has 64 bits: the arithmetic of `addGuest` and
  `updateGuest`, which involves a request integer, wraps around (`wrap64`).
  In `getFreeSeats` both operands are read from the store (a 32-bit
  column, a sum over such a column) and the subtraction is the one of `Int`.
* `NOW()` is an argument of the functions that use it; a stored timestamp
  is an uninterpreted string.
* A Go slice is an `Option (List _)`, `none` for nil.
* A query that fails (a lost connection, say) has the outcome
  `RowResult.failed`.  The functions over a `Store` have every query
  answered; the occupancy query, the one query whose error the code drops,
  can be given a failure in `getFreeSeatsFrom` and in the `...Via` variants of
  `getFreeSeats`, `addGuest` and `updateGuest`, and a request of `Op` carries
  such a failure as its fault.
-/

namespace GolangAPI

/-! ## Errors -/

/-- Go `error` values the model distinguishes. -/
inductive Err
  | errNoRows         -- sql.ErrNoRows ("sql: no rows in result set")
  | nullToInt         -- Scan: "converting NULL to int is unsupported"
  | nullToString      -- Scan: "converting NULL to string is unsupported"
  | unableToAddGuest  -- errors.New("unable to add guest")
  | duplicateEntry    -- MySQL 1062, UNIQUE guest_name
  | foreignKey        -- MySQL 1452, FOREIGN KEY (table_number)
  | outOfRange        -- MySQL 1264, INT UNSIGNED column in strict mode
  | dataTooLong       -- MySQL 1406, VARCHAR (64) column in strict mode
  | incorrectString   -- MySQL 1366, character outside the character set of the column
  | badConn           -- any other failure of the store or the connection
  deriving DecidableEq

/-! ## Go integers -/

/-- Value of type `int` (64 bits, two-complement) that Go arithmetic yields when the
exact result is `x`. -/
def wrap64 (x : Int) : Int :=
  (x + 9223372036854775808) % 18446744073709551616 - 9223372036854775808

/-- Largest value of the Go type `int`. -/
def maxInt64 : Int := 9223372036854775807

/-- Smallest value of the Go type `int`. -/
def minInt64 : Int := -9223372036854775808

/-! ## Data model -/

/-- Base struct to store guest info (`type Guest struct` of model.go). -/
structure Guest where
  Name : String := ""
  Table : Int := 0
  AccompanyingGuests : Int := 0
  TimeArrived : String := ""
  Arrived : Int := 0
  deriving DecidableEq

/-- A row of `venue`: `table_number INT auto_increment`, `seats INT UNSIGNED`. -/
structure Table where
  table_number : Int
  seats : Int
  deriving DecidableEq

/-- A row of `guestlist` (the `id` column, which no statement reads, is the
position in the list). -/
structure GuestRow where
  guest_name : String
  table_number : Int
  accompanying_guests : Int
  time_arrived : Option String
  arrived : Bool
  deriving DecidableEq

/-- The database behind `db *sql.DB`. -/
structure Store where
  venue : List Table
  next_table : Int
  guestlist : List GuestRow
  strict_mode : Bool
  deriving DecidableEq

/-- The server behind `db *sql.DB`, as far as the statements depend on it.
`collate` is the collation of the `guest_name` column: the column holds two
names to be equal (`guest_name = ?`, UNIQUE) exactly when their keys are
equal.  `auto_timestamp` says that the server gives the first TIMESTAMP
column of a table the time of the statement when an INSERT does not write
it.  `lossy` is what the server keeps, without strict mode, of a name with a
character outside the character set of the column: the name up to that
character or the name with the character replaced, depending on the
character set of the connection. -/
structure Server where
  collate : String → String
  auto_timestamp : Bool
  lossy : String → String

/-- Largest value of an `INT UNSIGNED` column. -/
def maxUnsigned : Int := 4294967295

/-- What an `INT UNSIGNED` column stores when a statement writes `v`: the
value itself when in range; otherwise error 1264 in strict mode and the
nearest bound without strict mode. -/
def storeUnsigned (strict : Bool) (v : Int) : Except Err Int :=
  if 0 ≤ v ∧ v ≤ maxUnsigned then .ok v
  else if strict then .error .outOfRange
  else if v < 0 then .ok 0
  else .ok maxUnsigned

/-- Length of the column `guest_name VARCHAR (64)`, in characters. -/
def maxNameLength : Nat := 64

/-- Characters of the character set of the column, utf8 with at most three
bytes a character: the code points up to U+FFFF. -/
def columnChar (c : Char) : Bool := decide (c.toNat ≤ 65535)

/-- A name the column `guest_name` stores as it is written: at most 64
characters, all of the character set of the column. -/
def nameFits (name : String) : Bool :=
  name.toList.all columnChar && decide (name.length ≤ maxNameLength)

/-- What the column `guest_name VARCHAR (64)` stores of a name of its
character set: the name itself when it has at most 64 characters.  A longer
name is cut to 64 characters when only spaces are lost, and otherwise
refused in strict mode (error 1406) and cut to 64 characters without strict
mode. -/
def fitLength (strict : Bool) (name : String) : Except Err String :=
  if name.length ≤ maxNameLength then .ok name
  else if (name.toList.drop maxNameLength).all (fun c => c == ' ') then
    .ok (String.mk (name.toList.take maxNameLength))
  else if strict then .error .dataTooLong
  else .ok (String.mk (name.toList.take maxNameLength))

/-- What the column `guest_name VARCHAR (64) CHARACTER SET utf8` stores when a
statement writes `name`.  A name with a character outside the character set
is refused in strict mode (error 1366); without strict mode the server
keeps `srv.lossy name` of it; then the length is fitted. -/
def storeName (srv : Server) (strict : Bool) (name : String) : Except Err String :=
  if name.toList.all columnChar then fitLength strict name
  else if strict then .error .incorrectString
  else fitLength false (srv.lossy name)

/-- Outcome of `db.QueryRow(...)` for a query with one integer column. -/
inductive RowResult
  | failed (e : Err)         -- the query failed
  | noRows                   -- no row matched
  | value (v : Option Int)   -- the first row; `none` is SQL NULL
  deriving DecidableEq

/-- Model of `(*sql.Row).Scan(&dest)` for `dest` of type `int`: the new value of `dest`
and the error.  `dest` keeps its value whenever an error is returned. -/
def RowResult.Scan (r : RowResult) (dest : Int) : Int × Option Err :=
  match r with
  | .failed e => (dest, some e)
  | .noRows => (dest, some .errNoRows)
  | .value none => (dest, some .nullToInt)
  | .value (some v) => (v, none)

/-- SQL `SUM(...)` over the selected rows: NULL when no row is selected. -/
def sqlSum (xs : List Int) : RowResult :=
  .value (if xs.isEmpty then none else some xs.sum)

/-- Query `SELECT SUM(seats) FROM venue`. -/
def Store.sumSeats (db : Store) : RowResult :=
  sqlSum (db.venue.map (fun t => t.seats))

/-- Query `SELECT SUM(accompanying_guests + 1) FROM guestlist`. -/
def Store.sumUsed (db : Store) : RowResult :=
  sqlSum (db.guestlist.map (fun g => g.accompanying_guests + 1))

/-- Query `SELECT seats FROM venue WHERE table_number=?`. -/
def Store.seatsOf (db : Store) (table : Int) : RowResult :=
  match db.venue.find? (fun t => t.table_number == table) with
  | none => .noRows
  | some t => .value (some t.seats)

/-- Query `SELECT SUM(accompanying_guests + 1) FROM guestlist WHERE table_number=?`. -/
def Store.sumUsedAt (db : Store) (table : Int) : RowResult :=
  sqlSum ((db.guestlist.filter (fun g => g.table_number == table)).map
    (fun g => g.accompanying_guests + 1))

/-- Condition `guest_name = ?` of a statement, evaluated on a row under the
collation of the column. -/
def nameMatches (srv : Server) (name : String) (g : GuestRow) : Bool :=
  srv.collate g.guest_name == srv.collate name

/-- Statement `INSERT INTO venue (seats) values (?)`. -/
def Store.insertVenue (db : Store) (seats : Int) : Option Err × Store :=
  match storeUnsigned db.strict_mode seats with
  | .error e => (some e, db)
  | .ok s =>
    (none, { db with venue := db.venue ++ [⟨db.next_table, s⟩],
                     next_table := db.next_table + 1 })

/-- Value of `time_arrived` in a row whose INSERT does not write the column:
the time of the statement on a server that fills the column, NULL otherwise. -/
def Server.insertTime (srv : Server) (now : String) : Option String :=
  if srv.auto_timestamp then some now else none

/-- Statement `INSERT INTO guestlist (guest_name, table_number, accompanying_guests,
arrived) values (?, ?, ?, ?)` executed at the time `now`.  The values are
converted for their columns, then the UNIQUE index on `guest_name` (under the
collation) and the foreign key are checked.  The statement does not write
`time_arrived`. -/
def Store.insertGuest (srv : Server) (db : Store) (name : String) (table acc : Int)
    (arrived : Bool) (now : String) : Option Err × Store :=
  match storeName srv db.strict_mode name with
  | .error e => (some e, db)
  | .ok n =>
    match storeUnsigned db.strict_mode acc with
    | .error e => (some e, db)
    | .ok a =>
      if db.guestlist.any (nameMatches srv n) then (some .duplicateEntry, db)
      else if !(db.venue.any (fun t => t.table_number == table)) then (some .foreignKey, db)
      else
        (none,
          { db with guestlist := db.guestlist ++ [⟨n, table, a, srv.insertTime now, arrived⟩] })

/-- Row after `SET time_arrived=NOW(), arrived=true`. -/
def GuestRow.setArrived (now : String) (g : GuestRow) : GuestRow :=
  { g with time_arrived := some now, arrived := true }

/-- Row after `SET accompanying_guests=a, time_arrived=NOW(), arrived=true`. -/
def GuestRow.setParty (a : Int) (now : String) (g : GuestRow) : GuestRow :=
  { g with accompanying_guests := a, time_arrived := some now, arrived := true }

/-- Rows after `UPDATE guestlist SET ... WHERE guest_name=name`: `set` applied to
every row the condition matches, the other rows and the order kept. -/
def updateWhere (srv : Server) (name : String) (set : GuestRow → GuestRow)
    (rows : List GuestRow) : List GuestRow :=
  rows.map (fun g => if nameMatches srv name g then set g else g)

/-- Statement `UPDATE guestlist SET time_arrived=NOW(), arrived=? WHERE guest_name=?`
with `arrived = true`. -/
def Store.updateArrived (srv : Server) (db : Store) (name now : String) : Option Err × Store :=
  (none,
    { db with guestlist := updateWhere srv name (GuestRow.setArrived now) db.guestlist })

/-- Statement `UPDATE guestlist SET accompanying_guests=?, time_arrived=NOW(), arrived=?
WHERE guest_name=?` with `arrived = true`.  The value is converted for the
rows the statement updates, so nothing fails when no row has the name. -/
def Store.updateParty (srv : Server) (db : Store) (name : String) (acc : Int) (now : String) :
    Option Err × Store :=
  if !(db.guestlist.any (nameMatches srv name)) then (none, db)
  else
    match storeUnsigned db.strict_mode acc with
    | .error e => (some e, db)
    | .ok a =>
      (none,
        { db with guestlist := updateWhere srv name (GuestRow.setParty a now) db.guestlist })

/-- Statement `DELETE FROM guestlist WHERE guest_name = ?`. -/
def Store.deleteNamed (srv : Server) (db : Store) (name : String) : Option Err × Store :=
  (none, { db with guestlist := db.guestlist.filter (fun g => !(nameMatches srv name g)) })

/-! ## model.go -/

/-- Adds a new table to the venue table (`addTable`). -/
def addTable (db : Store) (seats : Int) : Option Err × Store :=
  db.insertVenue seats

/-- Body of `getFreeSeats` once the two queries of the chosen branch are
known: `first` fills `freeSeats`, `second` fills `usedSeats`.  An error of
the first scan is returned with 0; an error of the second scan is dropped
and `freeSeats` returned (the "BUG workaround setting err nil"). -/
def getFreeSeatsFrom (first second : RowResult) : Int × Option Err :=
  let freeSeats : Int := 0
  let usedSeats : Int := 0
  match first.Scan freeSeats with
  | (_, some err) => (0, some err)
  | (freeSeats, none) =>
    match second.Scan usedSeats with
    | (_, some _) => (freeSeats, none)
    | (usedSeats, none) => (freeSeats - usedSeats, none)

/-- Queries database for the number of free seats (`getFreeSeats`): with
`all = false` the free seats of `table`, with `all = true` all free seats. -/
def getFreeSeats (db : Store) (table : Int) (all : Bool) : Int × Option Err :=
  if all then getFreeSeatsFrom db.sumSeats db.sumUsed
  else getFreeSeatsFrom (db.seatsOf table) (db.sumUsedAt table)

/-- Handles the addition of new guests to the guestlist (`(g *Guest) addGuest`);
`now` is the time at which the server executes the INSERT.  The line
`freeSeats = freeSeats - g.AccompanyingGuests - 1` is two subtractions on `int`. -/
def addGuest (srv : Server) (db : Store) (g : Guest) (now : String) : Option Err × Store :=
  match getFreeSeats db g.Table false with
  | (freeSeats, err) =>
    let freeSeats := wrap64 (wrap64 (freeSeats - g.AccompanyingGuests) - 1)
    if err ≠ none then (err, db)
    else if freeSeats < 0 then (some .unableToAddGuest, db)
    else db.insertGuest srv g.Name g.Table g.AccompanyingGuests false now

/-- Updates the entry with time_arrived and sets the arrived flag
(`(g *Guest) updateGuest`).  The first query scans the stored table into
`g.Table` and the stored party size into `previousAccompanyingGuests`.  The line
`freeSeats = freeSeats + previousAccompanyingGuests - g.AccompanyingGuests` is an
addition and a subtraction on `int`. -/
def updateGuest (srv : Server) (db : Store) (g : Guest) (now : String) : Option Err × Store :=
  match db.guestlist.find? (nameMatches srv g.Name) with
  | none => (some .errNoRows, db)
  | some row =>
    let gTable := row.table_number
    let previousAccompanyingGuests := row.accompanying_guests
    if previousAccompanyingGuests = g.AccompanyingGuests then
      db.updateArrived srv g.Name now
    else
      match getFreeSeats db gTable false with
      | (freeSeats, err) =>
        let freeSeats :=
          wrap64 (wrap64 (freeSeats + previousAccompanyingGuests) - g.AccompanyingGuests)
        if err ≠ none then (err, db)
        else if freeSeats < 0 then (some .unableToAddGuest, db)
        else db.updateParty srv g.Name g.AccompanyingGuests now

/-- Deletes guest entry from DB (`deleteGuest`). -/
def deleteGuest (srv : Server) (db : Store) (name : String) : Option Err × Store :=
  db.deleteNamed srv name

/-- Get guest (name) from guestlist (`getGuest`). -/
def getGuest (srv : Server) (db : Store) (name : String) : Guest × Option Err :=
  let g : Guest := { Name := name }
  match db.guestlist.find? (nameMatches srv g.Name) with
  | none => (g, some .errNoRows)
  | some row =>
    ({ g with Table := row.table_number,
              AccompanyingGuests := row.accompanying_guests,
              Arrived := if row.arrived then 1 else 0 }, none)

/-- Function `getFreeSeats` with `all = false` on a store whose occupancy query (the
second query) has the outcome `used table`, which may be a failure; the
store itself answers with `Store.sumUsedAt`. -/
def getFreeSeatsVia (used : Int → RowResult) (db : Store) (table : Int) : Int × Option Err :=
  getFreeSeatsFrom (db.seatsOf table) (used table)

/-- Method `addGuest` on a store whose occupancy query has the outcome `used table`. -/
def addGuestVia (srv : Server) (used : Int → RowResult) (db : Store) (g : Guest)
    (now : String) : Option Err × Store :=
  match getFreeSeatsVia used db g.Table with
  | (freeSeats, err) =>
    let freeSeats := wrap64 (wrap64 (freeSeats - g.AccompanyingGuests) - 1)
    if err ≠ none then (err, db)
    else if freeSeats < 0 then (some .unableToAddGuest, db)
    else db.insertGuest srv g.Name g.Table g.AccompanyingGuests false now

/-- Method `updateGuest` on a store whose occupancy query has the outcome `used table`. -/
def updateGuestVia (srv : Server) (used : Int → RowResult) (db : Store) (g : Guest)
    (now : String) : Option Err × Store :=
  match db.guestlist.find? (nameMatches srv g.Name) with
  | none => (some .errNoRows, db)
  | some row =>
    let gTable := row.table_number
    let previousAccompanyingGuests := row.accompanying_guests
    if previousAccompanyingGuests = g.AccompanyingGuests then
      db.updateArrived srv g.Name now
    else
      match getFreeSeatsVia used db gTable with
      | (freeSeats, err) =>
        let freeSeats :=
          wrap64 (wrap64 (freeSeats + previousAccompanyingGuests) - g.AccompanyingGuests)
        if err ≠ none then (err, db)
        else if freeSeats < 0 then (some .unableToAddGuest, db)
        else db.updateParty srv g.Name g.AccompanyingGuests now

/-! ## app.go -/

/-- Handler of `PUT /guests/{name}` (`handlerGuestArrives`): the status code and the
store afterwards.  `body` is the request body decoded into a Guest, `none`
when decoding fails (400); every error of `updateGuest` is answered with
`http.StatusConflict` (409), success with 200. -/
def handlerGuestArrives (srv : Server) (db : Store) (name : String) (body : Option Guest)
    (now : String) : Nat × Store :=
  match body with
  | none => (400, db)
  | some g =>
    let g : Guest := { g with Name := name }
    match updateGuest srv db g now with
    | (some _, db1) => (409, db1)
    | (none, db1) => (200, db1)

/-- Handler of `GET /guests/{name}` (`handlerGetGuest`): every error of `getGuest` is
answered with `http.StatusNotFound` (404), success with 200 and the guest. -/
def handlerGetGuest (srv : Server) (db : Store) (name : String) : Nat × Option Guest :=
  match getGuest srv db name with
  | (_, some _) => (404, none)
  | (g, none) => (200, some g)

/-- Handler of `GET /seats_empty` (`handlerSeatsEmpty`): the status code and, on
success, the `seats_empty` field of the body. -/
def handlerSeatsEmpty (db : Store) : Nat × Option Int :=
  match getFreeSeats db 0 true with
  | (_, some _) => (500, none)
  | (seats, none) => (200, some seats)

/-! ## Seat accounting -/

/-- Seats claimed at `table` by the rows `rows`: the sum of
`accompanying_guests + 1` over the rows whose `table_number` is `table`
(0 when there is none). -/
def occupied (rows : List GuestRow) (table : Int) : Int :=
  ((rows.filter (fun g => g.table_number == table)).map
    (fun g => g.accompanying_guests + 1)).sum

/-- Occupied seats of a table in a store (`occupied_seats` of the specification). -/
def occupiedSeats (db : Store) (table : Int) : Int :=
  occupied db.guestlist table

/-- Seat-accounting invariant: no table of the venue holds more than its seats. -/
def capacityInvariant (db : Store) : Prop :=
  ∀ T ∈ db.venue, occupiedSeats db T.table_number ≤ T.seats

instance (db : Store) : Decidable (capacityInvariant db) := by
  unfold capacityInvariant; infer_instance

/-- Constraints the schema puts on every state of the store: `table_number`
is a primary key below the AUTO_INCREMENT counter, `seats` and
`accompanying_guests` are `INT UNSIGNED`, `guest_name` is UNIQUE under the
collation of the column and `guestlist.table_number` references `venue`. -/
def Store.WF (srv : Server) (db : Store) : Prop :=
  (db.venue.map (fun t => t.table_number)).Nodup ∧
  (∀ T ∈ db.venue, T.table_number < db.next_table) ∧
  (∀ T ∈ db.venue, 0 ≤ T.seats ∧ T.seats ≤ maxUnsigned) ∧
  (db.guestlist.map (fun g => srv.collate g.guest_name)).Nodup ∧
  (∀ g ∈ db.guestlist, 0 ≤ g.accompanying_guests ∧ g.accompanying_guests ≤ maxUnsigned) ∧
  (∀ g ∈ db.guestlist, ∃ T ∈ db.venue, T.table_number = g.table_number)

instance (srv : Server) (db : Store) : Decidable (db.WF srv) := by
  unfold Store.WF; infer_instance

/-- One request to the model layer.  `fault`, when not `none`, is the error
with which the occupancy query of `getFreeSeats` fails while the request is
served. -/
inductive Op
  | addTable (seats : Int)
  | addGuest (g : Guest) (now : String) (fault : Option Err)
  | updateGuest (g : Guest) (now : String) (fault : Option Err)
  | deleteGuest (name : String)
  deriving DecidableEq

/-- Party size a request carries (0 for the requests without one). -/
def Op.partySize : Op → Int
  | .addGuest g _ _ => g.AccompanyingGuests
  | .updateGuest g _ _ => g.AccompanyingGuests
  | _ => 0

/-- The fault of a request (`none` for the requests without occupancy query). -/
def Op.fault : Op → Option Err
  | .addGuest _ _ f => f
  | .updateGuest _ _ f => f
  | _ => none

/-- Executes one request: the returned error and the store afterwards. -/
def Op.exec (srv : Server) (db : Store) : Op → Option Err × Store
  | .addTable seats => GolangAPI.addTable db seats
  | .addGuest g now none => GolangAPI.addGuest srv db g now
  | .addGuest g now (some e) => addGuestVia srv (fun _ => .failed e) db g now
  | .updateGuest g now none => GolangAPI.updateGuest srv db g now
  | .updateGuest g now (some e) => updateGuestVia srv (fun _ => .failed e) db g now
  | .deleteGuest name => GolangAPI.deleteGuest srv db name

/-- Store after the requests `ops` executed one after the other, failed ones included. -/
def run (srv : Server) (db : Store) (ops : List Op) : Store :=
  ops.foldl (fun d op => (op.exec srv d).2) db

/-! ## Example servers and stores -/

/-- A case-insensitive collation that ignores trailing spaces: the key of a
name is the name without trailing spaces, upper-case ASCII letters
replaced by the lower-case ones. -/
def foldKey (s : String) : String :=
  String.mk (((s.toList.reverse.dropWhile (fun c => c == ' ')).reverse).map Char.toLower)

/-- The name up to its first character outside the character set of the column. -/
def cutAtForeign (s : String) : String :=
  String.mk (s.toList.takeWhile columnChar)

/-- A server with a case-insensitive collation that leaves `time_arrived` NULL on INSERT. -/
def serverNull : Server :=
  { collate := foldKey, auto_timestamp := false, lossy := cutAtForeign }

/-- A server with a case-insensitive collation that fills `time_arrived` on INSERT. -/
def serverAuto : Server :=
  { collate := foldKey, auto_timestamp := true, lossy := cutAtForeign }

/-- Store of `initializeDB` in main_test.go: three tables of 12 seats, no guest. -/
def db12 : Store := ⟨[⟨1, 12⟩, ⟨2, 12⟩, ⟨3, 12⟩], 4, [], true⟩

/-- Store with neither table nor guest (`resetDB`). -/
def dbEmpty : Store := ⟨[], 1, [], true⟩

/-- Store of test `TestHandlerSeatsEmpty` after `addGuests(2, false)`. -/
def db12Two : Store :=
  { db12 with guestlist :=
      [⟨"TestGuest1", 2, 4, none, false⟩, ⟨"TestGuest2", 3, 8, none, false⟩] }

/-- Store of test `TestHandlerGuestArrives` after `addGuests(3, false)`. -/
def db12Three : Store :=
  { db12 with guestlist :=
      [⟨"TestGuest1", 2, 4, none, false⟩, ⟨"TestGuest2", 3, 8, none, false⟩,
       ⟨"TestGuest3", 1, 0, none, false⟩] }

/-- One table of 4 seats, no guest. -/
def db4 : Store := ⟨[⟨1, 4⟩], 2, [], true⟩

/-- The store `db4` after guest A registered with two accompanying guests. -/
def db4A : Store := { db4 with guestlist := [⟨"A", 1, 2, none, false⟩] }

/-- The store `db4` without strict mode. -/
def db4Lax : Store := { db4 with strict_mode := false }

/-- Guest X registered with one accompanying guest at a table of 6 seats: 4 seats are free. -/
def dbX : Store := ⟨[⟨1, 6⟩], 2, [⟨"X", 1, 1, none, false⟩], true⟩

/-- An over-capacity state: guest X with three accompanying guests at a table of 2 seats. -/
def dbOver : Store := ⟨[⟨1, 2⟩], 2, [⟨"X", 1, 3, none, false⟩], true⟩

/-- An over-capacity state without strict mode: guests X and Y with three
accompanying guests each at a table of 2 seats. -/
def dbOverTwo : Store :=
  ⟨[⟨1, 2⟩], 2, [⟨"X", 1, 3, none, false⟩, ⟨"Y", 1, 3, none, false⟩], false⟩

/-- A name of 65 characters. -/
def longName : String :=
  "aaaaaaaaaaaaaaaaaaaaaaaaaaaaaaaaaaaaaaaaaaaaaaaaaaaaaaaaaaaaaaaaa"

/-- The first 64 characters of `longName`. -/
def longNameCut : String :=
  "aaaaaaaaaaaaaaaaaaaaaaaaaaaaaaaaaaaaaaaaaaaaaaaaaaaaaaaaaaaaaaaa"

/-- A request sequence with failing and succeeding requests, all served by an
answering store. -/
def opsExample : List Op :=
  [.addGuest { Name := "TestGuest1", Table := 1, AccompanyingGuests := 2 } "t0" none,
   .addGuest { Name := "TestGuest2", Table := 1, AccompanyingGuests := 12 } "t0" none,
   .updateGuest { Name := "TestGuest1", AccompanyingGuests := 11 } "t1" none,
   .updateGuest { Name := "TestGuest1", AccompanyingGuests := 12 } "t2" none,
   .addTable 4,
   .addGuest { Name := "TestGuest3", Table := 4, AccompanyingGuests := 3 } "t3" none,
   .deleteGuest "TestGuest1"]

/-- Every row with the arrived flag carries an arrival time (the data model:
`time_arrived` is set when `arrived` becomes true). -/
def arrivedHaveTime (db : Store) : Prop :=
  ∀ r ∈ db.guestlist, r.arrived = true → r.time_arrived ≠ none

instance (db : Store) : Decidable (arrivedHaveTime db) := by
  unfold arrivedHaveTime; infer_instance

/-! ## Facts about the store primitives -/

theorem storeUnsigned_range {strict : Bool} {v a : Int}
    (h : storeUnsigned strict v = .ok a) : 0 ≤ a ∧ a ≤ maxUnsigned := by
  unfold storeUnsigned at h
  split_ifs at h with h1 h2 h3
  · cases h; exact h1
  · cases h; simp [maxUnsigned]
  · cases h; simp [maxUnsigned]

theorem storeUnsigned_le {strict : Bool} {v a : Int} (hv : 0 ≤ v)
    (h : storeUnsigned strict v = .ok a) : a ≤ v := by
  unfold storeUnsigned at h
  split_ifs at h with h1 h2 h3
  · cases h; exact le_refl _
  · cases h; exact hv
  · cases h; omega

theorem storeUnsigned_of_range (strict : Bool) {v : Int} (h0 : 0 ≤ v)
    (h1 : v ≤ maxUnsigned) : storeUnsigned strict v = .ok v := by
  unfold storeUnsigned
  rw [if_pos ⟨h0, h1⟩]

theorem find?_of_nodup_key {α κ : Type} [BEq κ] [LawfulBEq κ] (key : α → κ) :
    ∀ (l : List α), (l.map key).Nodup → ∀ x ∈ l,
      l.find? (fun y => key y == key x) = some x := by
  intro l
  induction l with
  | nil => intro _ x hx; cases hx
  | cons y ys ih =>
    intro hnd x hx
    rw [List.map_cons, List.nodup_cons] at hnd
    rcases List.mem_cons.mp hx with rfl | hx
    · simp [List.find?_cons]
    · have hne : ¬ key y = key x := by
        intro heq
        exact hnd.1 (heq ▸ List.mem_map_of_mem key hx)
      simp [List.find?_cons, hne, ih hnd.2 x hx]

theorem find?_none_of_key {α κ : Type} [BEq κ] [LawfulBEq κ] (key : α → κ) (k : κ)
    (l : List α) (h : ∀ x ∈ l, key x ≠ k) : l.find? (fun y => key y == k) = none := by
  simp [List.find?_eq_none]
  exact h

theorem occupied_nil (t : Int) : occupied [] t = 0 := rfl

theorem occupied_cons (r : GuestRow) (l : List GuestRow) (t : Int) :
    occupied (r :: l) t =
      (if r.table_number = t then r.accompanying_guests + 1 else 0) + occupied l t := by
  unfold occupied
  by_cases h : r.table_number = t <;> simp [List.filter_cons, h]

theorem occupied_append (l₁ l₂ : List GuestRow) (t : Int) :
    occupied (l₁ ++ l₂) t = occupied l₁ t + occupied l₂ t := by
  simp [occupied, List.filter_append]

theorem occupied_nonneg (l : List GuestRow) (t : Int)
    (h : ∀ g ∈ l, 0 ≤ g.accompanying_guests) : 0 ≤ occupied l t := by
  induction l with
  | nil => simp [occupied_nil]
  | cons r rs ih =>
    rw [occupied_cons]
    have h1 := h r (List.mem_cons_self _ _)
    have h2 := ih (fun g hg => h g (List.mem_cons_of_mem _ hg))
    split_ifs <;> omega

/-! ## Facts about `getFreeSeats` -/

theorem getFreeSeatsFrom_sum (s : Int) (xs : List Int) :
    getFreeSeatsFrom (.value (some s)) (sqlSum xs) = (s - xs.sum, none) := by
  cases xs with
  | nil => simp [getFreeSeatsFrom, sqlSum, RowResult.Scan]
  | cons x xs => simp [getFreeSeatsFrom, sqlSum, RowResult.Scan]

theorem getFreeSeats_no_table (db : Store) (t : Int)
    (h : ∀ T ∈ db.venue, T.table_number ≠ t) :
    getFreeSeats db t false = (0, some .errNoRows) := by
  have hf := find?_none_of_key (fun T : Table => T.table_number) t db.venue h
  simp [getFreeSeats, Store.seatsOf, hf, getFreeSeatsFrom, RowResult.Scan]

theorem getFreeSeats_table (db : Store) (T : Table)
    (hpk : (db.venue.map (fun t => t.table_number)).Nodup) (hT : T ∈ db.venue) :
    getFreeSeats db T.table_number false =
      (T.seats - occupiedSeats db T.table_number, none) := by
  have hf := find?_of_nodup_key (fun t : Table => t.table_number) db.venue hpk T hT
  simp only [getFreeSeats, Store.seatsOf, hf, Store.sumUsedAt, getFreeSeatsFrom_sum]
  rfl

/-! ## Facts about Go integers and the column conversions -/

theorem wrap64_of_range {x : Int} (h0 : -9223372036854775808 ≤ x)
    (h1 : x ≤ 9223372036854775807) : wrap64 x = x := by
  unfold wrap64
  omega

theorem wrap64_sub_sub {f a : Int} (hf0 : -9223372036854775808 ≤ f - a - 1)
    (hf1 : f - a ≤ 9223372036854775807) :
    wrap64 (wrap64 (f - a) - 1) = f - a - 1 := by
  rw [wrap64_of_range (by omega) hf1, wrap64_of_range hf0 (by omega)]

theorem wrap64_add_sub {f p a : Int} (h0 : -9223372036854775808 ≤ f + p)
    (h1 : f + p ≤ 9223372036854775807) (h2 : -9223372036854775808 ≤ f + p - a)
    (h3 : f + p - a ≤ 9223372036854775807) :
    wrap64 (wrap64 (f + p) - a) = f + p - a := by
  rw [wrap64_of_range h0 h1, wrap64_of_range h2 h3]

theorem storeName_of_fits (srv : Server) (strict : Bool) {name : String}
    (h : nameFits name = true) : storeName srv strict name = .ok name := by
  unfold nameFits at h
  rw [Bool.and_eq_true, decide_eq_true_eq] at h
  unfold storeName fitLength
  rw [if_pos h.1, if_pos h.2]

theorem nameMatches_iff (srv : Server) (name : String) (g : GuestRow) :
    nameMatches srv name g = true ↔ srv.collate g.guest_name = srv.collate name := by
  unfold nameMatches
  exact beq_iff_eq

theorem nameMatches_congr (srv : Server) {n1 n2 : String}
    (h : srv.collate n1 = srv.collate n2) : nameMatches srv n1 = nameMatches srv n2 := by
  funext g
  unfold nameMatches
  rw [h]

theorem nameMatches_self (srv : Server) (g : GuestRow) :
    nameMatches srv g.guest_name g = true := by
  rw [nameMatches_iff]

/-! ## Facts about `updateWhere` and deletion -/

theorem updateWhere_keys (srv : Server) (name : String) (set : GuestRow → GuestRow)
    (hset : ∀ g, (set g).guest_name = g.guest_name) (l : List GuestRow) :
    (updateWhere srv name set l).map (fun g => srv.collate g.guest_name) =
      l.map (fun g => srv.collate g.guest_name) := by
  induction l with
  | nil => rfl
  | cons r rs ih =>
    simp only [updateWhere, List.map_cons] at ih ⊢
    rw [ih]
    by_cases h : nameMatches srv name r = true <;> simp [h, hset]

theorem updateWhere_of_absent (srv : Server) (name : String) (set : GuestRow → GuestRow)
    (l : List GuestRow) (h : ∀ g ∈ l, srv.collate g.guest_name ≠ srv.collate name) :
    updateWhere srv name set l = l := by
  induction l with
  | nil => rfl
  | cons r rs ih =>
    have h1 : ¬ nameMatches srv name r = true := by
      rw [nameMatches_iff]; exact h r (List.mem_cons_self _ _)
    have h2 := ih (fun g hg => h g (List.mem_cons_of_mem _ hg))
    simp only [updateWhere, List.map_cons] at h2 ⊢
    rw [h2]
    simp [h1]

theorem updateWhere_unique (srv : Server) (set : GuestRow → GuestRow) (row : GuestRow)
    (l : List GuestRow) (hnd : (l.map (fun g => srv.collate g.guest_name)).Nodup)
    (hrow : row ∈ l) :
    updateWhere srv row.guest_name set l =
      l.map (fun r => if r = row then set row else r) := by
  unfold updateWhere
  apply List.map_congr_left
  intro r hr
  by_cases h : r = row
  · subst h; simp [nameMatches_self]
  · have hne : ¬ nameMatches srv row.guest_name r = true := by
      rw [nameMatches_iff]
      intro heq
      exact h (List.inj_on_of_nodup_map hnd hr hrow heq)
    simp [h, hne]

theorem occupied_updateWhere (srv : Server) (set : GuestRow → GuestRow)
    (hset : ∀ g, (set g).table_number = g.table_number) (row : GuestRow) (t : Int) :
    ∀ (l : List GuestRow), (l.map (fun g => srv.collate g.guest_name)).Nodup → row ∈ l →
      occupied (updateWhere srv row.guest_name set l) t =
        occupied l t + (if row.table_number = t then
          (set row).accompanying_guests - row.accompanying_guests else 0) := by
  intro l
  induction l with
  | nil => intro _ h; cases h
  | cons r rs ih =>
    intro hnd hrow
    rw [List.map_cons, List.nodup_cons] at hnd
    by_cases hr : r = row
    · subst hr
      have habs : ∀ g ∈ rs, srv.collate g.guest_name ≠ srv.collate r.guest_name := by
        intro g hg heq
        exact hnd.1 (heq ▸ List.mem_map_of_mem (fun g => srv.collate g.guest_name) hg)
      have htail := updateWhere_of_absent srv r.guest_name set rs habs
      have hcons : updateWhere srv r.guest_name set (r :: rs) = set r :: rs := by
        simp only [updateWhere, List.map_cons] at htail ⊢
        rw [htail]; simp [nameMatches_self]
      rw [hcons, occupied_cons, occupied_cons, hset]
      split_ifs <;> omega
    · have hmem : row ∈ rs := by
        rcases List.mem_cons.mp hrow with h | h
        · exact absurd h.symm hr
        · exact h
      have hne : ¬ nameMatches srv row.guest_name r = true := by
        rw [nameMatches_iff]
        intro heq
        exact hnd.1 (heq ▸ List.mem_map_of_mem (fun g => srv.collate g.guest_name) hmem)
      have hcons : updateWhere srv row.guest_name set (r :: rs) =
          r :: updateWhere srv row.guest_name set rs := by
        simp [updateWhere, hne]
      rw [hcons, occupied_cons, occupied_cons, ih hnd.2 hmem]
      omega

theorem filter_of_absent (srv : Server) (name : String) (l : List GuestRow)
    (h : ∀ g ∈ l, srv.collate g.guest_name ≠ srv.collate name) :
    l.filter (fun g => !(nameMatches srv name g)) = l := by
  rw [List.filter_eq_self]
  intro g hg
  have h1 : ¬ nameMatches srv name g = true := by
    rw [nameMatches_iff]; exact h g hg
  simp [h1]

theorem occupied_delete (srv : Server) (row : GuestRow) (t : Int) :
    ∀ (l : List GuestRow), (l.map (fun g => srv.collate g.guest_name)).Nodup → row ∈ l →
      occupied (l.filter (fun g => !(nameMatches srv row.guest_name g))) t =
        occupied l t - (if row.table_number = t then row.accompanying_guests + 1 else 0) := by
  intro l
  induction l with
  | nil => intro _ h; cases h
  | cons r rs ih =>
    intro hnd hrow
    rw [List.map_cons, List.nodup_cons] at hnd
    by_cases hr : r = row
    · subst hr
      have habs : ∀ g ∈ rs, srv.collate g.guest_name ≠ srv.collate r.guest_name := by
        intro g hg heq
        exact hnd.1 (heq ▸ List.mem_map_of_mem (fun g => srv.collate g.guest_name) hg)
      have hcons : (r :: rs).filter (fun g => !(nameMatches srv r.guest_name g)) = rs := by
        rw [List.filter_cons]
        simp [filter_of_absent srv r.guest_name rs habs, nameMatches_self]
      rw [hcons, occupied_cons]
      omega
    · have hmem : row ∈ rs := by
        rcases List.mem_cons.mp hrow with h | h
        · exact absurd h.symm hr
        · exact h
      have hne : ¬ nameMatches srv row.guest_name r = true := by
        rw [nameMatches_iff]
        intro heq
        exact hnd.1 (heq ▸ List.mem_map_of_mem (fun g => srv.collate g.guest_name) hmem)
      have hcons : (r :: rs).filter (fun g => !(nameMatches srv row.guest_name g)) =
          r :: rs.filter (fun g => !(nameMatches srv row.guest_name g)) := by
        rw [List.filter_cons]
        simp [hne]
      rw [hcons, occupied_cons, occupied_cons, ih hnd.2 hmem]
      omega

theorem nameMatches_congr_update (srv : Server) {n1 n2 : String}
    (h : srv.collate n1 = srv.collate n2) (set : GuestRow → GuestRow) (l : List GuestRow) :
    updateWhere srv n1 set l = updateWhere srv n2 set l := by
  unfold updateWhere
  rw [nameMatches_congr srv h]

theorem find?_named (srv : Server) (name : String) (row : GuestRow) (l : List GuestRow)
    (hnd : (l.map (fun g => srv.collate g.guest_name)).Nodup) (hrow : row ∈ l)
    (hname : srv.collate row.guest_name = srv.collate name) :
    l.find? (nameMatches srv name) = some row := by
  have h := find?_of_nodup_key (fun g : GuestRow => srv.collate g.guest_name) l hnd row hrow
  have hfun : nameMatches srv name =
      (fun y : GuestRow => srv.collate y.guest_name == srv.collate row.guest_name) := by
    funext y
    unfold nameMatches
    rw [hname]
  rw [hfun]
  exact h

theorem find?_unnamed (srv : Server) (name : String) (l : List GuestRow)
    (h : ∀ g ∈ l, srv.collate g.guest_name ≠ srv.collate name) :
    l.find? (nameMatches srv name) = none := by
  rw [List.find?_eq_none]
  intro g hg
  rw [nameMatches_iff]
  exact h g hg

theorem occupied_filter_le (p : GuestRow → Bool) (t : Int) (l : List GuestRow)
    (h : ∀ g ∈ l, 0 ≤ g.accompanying_guests) :
    occupied (l.filter p) t ≤ occupied l t := by
  induction l with
  | nil => simp
  | cons r rs ih =>
    have h1 := h r (List.mem_cons_self _ _)
    have h2 := ih (fun g hg => h g (List.mem_cons_of_mem _ hg))
    rw [List.filter_cons]
    split_ifs with hp
    · rw [occupied_cons, occupied_cons]; omega
    · rw [occupied_cons]; split_ifs <;> omega

/-! ## Outcomes of the mutating functions -/

theorem addGuestVia_store (srv : Server) (db : Store) (g : Guest) (now : String) :
    addGuestVia srv db.sumUsedAt db g now = addGuest srv db g now := rfl

theorem updateGuestVia_store (srv : Server) (db : Store) (g : Guest) (now : String) :
    updateGuestVia srv db.sumUsedAt db g now = updateGuest srv db g now := rfl

theorem getFreeSeatsVia_store (db : Store) (table : Int) :
    getFreeSeatsVia db.sumUsedAt db table = getFreeSeats db table false := rfl

theorem insertGuest_result (srv : Server) (db : Store) (name : String) (table acc : Int)
    (now : String) :
    (∃ e, db.insertGuest srv name table acc false now = (some e, db)) ∨
    ∃ n a, storeName srv db.strict_mode name = .ok n ∧
      storeUnsigned db.strict_mode acc = .ok a ∧
      (∀ r ∈ db.guestlist, srv.collate r.guest_name ≠ srv.collate n) ∧
      (∃ T ∈ db.venue, T.table_number = table) ∧
      db.insertGuest srv name table acc false now =
        (none,
          { db with guestlist :=
              db.guestlist ++ [⟨n, table, a, srv.insertTime now, false⟩] }) := by
  unfold Store.insertGuest
  cases hn : storeName srv db.strict_mode name with
  | error e => left; exact ⟨e, rfl⟩
  | ok n =>
    cases hs : storeUnsigned db.strict_mode acc with
    | error e => left; exact ⟨e, rfl⟩
    | ok a =>
      by_cases hdup : db.guestlist.any (nameMatches srv n) = true
      · left; exact ⟨.duplicateEntry, by simp [hdup]⟩
      · by_cases hfk : db.venue.any (fun t => t.table_number == table) = true
        · right
          refine ⟨n, a, rfl, rfl, ?_, ?_, ?_⟩
          · intro r hr heq
            apply hdup
            rw [List.any_eq_true]
            exact ⟨r, hr, (nameMatches_iff srv n r).mpr heq⟩
          · rw [List.any_eq_true] at hfk
            obtain ⟨T, hT, hTt⟩ := hfk
            exact ⟨T, hT, by simpa using hTt⟩
          · simp [hdup, hfk]
        · left; exact ⟨.foreignKey, by simp [hdup, hfk]⟩

theorem addGuestVia_result (srv : Server) (used : Int → RowResult) (db : Store) (g : Guest)
    (now : String) :
    (∃ e, addGuestVia srv used db g now = (some e, db)) ∨
    ∃ n a, storeName srv db.strict_mode g.Name = .ok n ∧
      storeUnsigned db.strict_mode g.AccompanyingGuests = .ok a ∧
      (∀ r ∈ db.guestlist, srv.collate r.guest_name ≠ srv.collate n) ∧
      (∃ T ∈ db.venue, T.table_number = g.Table) ∧
      (getFreeSeatsVia used db g.Table).2 = none ∧
      0 ≤ wrap64 (wrap64 ((getFreeSeatsVia used db g.Table).1 - g.AccompanyingGuests) - 1) ∧
      addGuestVia srv used db g now =
        (none,
          { db with guestlist :=
              db.guestlist ++ [⟨n, g.Table, a, srv.insertTime now, false⟩] }) := by
  unfold addGuestVia
  rcases hfs : getFreeSeatsVia used db g.Table with ⟨fs, err⟩
  by_cases herr : err = none
  · subst herr
    by_cases hlt : wrap64 (wrap64 (fs - g.AccompanyingGuests) - 1) < 0
    · left; exact ⟨.unableToAddGuest, by simp [hlt]⟩
    · rcases insertGuest_result srv db g.Name g.Table g.AccompanyingGuests now with
        ⟨e, h⟩ | ⟨n, a, h0, h1, h2, h3, h4⟩
      · left; exact ⟨e, by simp [hlt, h]⟩
      · right
        refine ⟨n, a, h0, h1, h2, h3, rfl, by simpa using hlt, ?_⟩
        simp [hlt, h4]
  · left
    obtain ⟨e, he⟩ := Option.ne_none_iff_exists.mp herr
    exact ⟨e, by simp [← he]⟩

theorem updateParty_result (srv : Server) (db : Store) (name : String) (acc : Int)
    (now : String) (hex : ∃ r ∈ db.guestlist, srv.collate r.guest_name = srv.collate name) :
    (∃ e, db.updateParty srv name acc now = (some e, db)) ∨
    ∃ a, storeUnsigned db.strict_mode acc = .ok a ∧
      db.updateParty srv name acc now =
        (none,
          { db with guestlist :=
              updateWhere srv name (GuestRow.setParty a now) db.guestlist }) := by
  have hany : db.guestlist.any (nameMatches srv name) = true := by
    rw [List.any_eq_true]
    obtain ⟨r, hr, hn⟩ := hex
    exact ⟨r, hr, (nameMatches_iff srv name r).mpr hn⟩
  unfold Store.updateParty
  cases hs : storeUnsigned db.strict_mode acc with
  | error e => left; exact ⟨e, by simp [hany]⟩
  | ok a => right; exact ⟨a, rfl, by simp [hany]⟩

theorem updateGuestVia_result (srv : Server) (used : Int → RowResult) (db : Store)
    (g : Guest) (now : String) :
    (∃ e, updateGuestVia srv used db g now = (some e, db)) ∨
    (∃ row ∈ db.guestlist, srv.collate row.guest_name = srv.collate g.Name ∧
      row.accompanying_guests = g.AccompanyingGuests ∧
      updateGuestVia srv used db g now =
        (none,
          { db with guestlist :=
              updateWhere srv g.Name (GuestRow.setArrived now) db.guestlist })) ∨
    (∃ row ∈ db.guestlist, ∃ a, srv.collate row.guest_name = srv.collate g.Name ∧
      row.accompanying_guests ≠ g.AccompanyingGuests ∧
      storeUnsigned db.strict_mode g.AccompanyingGuests = .ok a ∧
      (getFreeSeatsVia used db row.table_number).2 = none ∧
      0 ≤ wrap64 (wrap64 ((getFreeSeatsVia used db row.table_number).1 +
            row.accompanying_guests) - g.AccompanyingGuests) ∧
      updateGuestVia srv used db g now =
        (none,
          { db with guestlist :=
              updateWhere srv g.Name (GuestRow.setParty a now) db.guestlist })) := by
  unfold updateGuestVia
  cases hf : db.guestlist.find? (nameMatches srv g.Name) with
  | none => left; exact ⟨.errNoRows, rfl⟩
  | some row =>
    have hmem : row ∈ db.guestlist := List.mem_of_find?_eq_some hf
    have hname : srv.collate row.guest_name = srv.collate g.Name :=
      (nameMatches_iff srv g.Name row).mp (List.find?_some hf)
    by_cases hsame : row.accompanying_guests = g.AccompanyingGuests
    · right; left
      exact ⟨row, hmem, hname, hsame, by simp [hsame, Store.updateArrived]⟩
    · rcases hfs : getFreeSeatsVia used db row.table_number with ⟨fs, err⟩
      by_cases herr : err = none
      · subst herr
        by_cases hlt : wrap64 (wrap64 (fs + row.accompanying_guests) - g.AccompanyingGuests) < 0
        · left; exact ⟨.unableToAddGuest, by simp [hsame, hfs, hlt]⟩
        · rcases updateParty_result srv db g.Name g.AccompanyingGuests now ⟨row, hmem, hname⟩
            with ⟨e, h⟩ | ⟨a, h1, h2⟩
          · left; exact ⟨e, by simp [hsame, hfs, hlt, h]⟩
          · right; right
            refine ⟨row, hmem, a, hname, hsame, h1, by rw [hfs], ?_, ?_⟩
            · rw [hfs]; simpa using hlt
            · simp [hsame, hfs, hlt, h2]
      · left
        obtain ⟨e, he⟩ := Option.ne_none_iff_exists.mp herr
        exact ⟨e, by simp [hsame, hfs, ← he]⟩

/-! ## The schema constraints are kept by every request -/

theorem occupied_eq_zero (l : List GuestRow) (t : Int)
    (h : ∀ g ∈ l, g.table_number ≠ t) : occupied l t = 0 := by
  induction l with
  | nil => rfl
  | cons r rs ih =>
    rw [occupied_cons, ih (fun g hg => h g (List.mem_cons_of_mem _ hg)),
      if_neg (h r (List.mem_cons_self _ _))]
    rfl

theorem addTable_WF (srv : Server) (db : Store) (seats : Int) (h : db.WF srv) :
    (addTable db seats).2.WF srv := by
  unfold addTable Store.insertVenue
  cases hs : storeUnsigned db.strict_mode seats with
  | error e => exact h
  | ok s =>
    obtain ⟨hpk, hnext, hseats, huniq, hacc, hfk⟩ := h
    have hrange := storeUnsigned_range hs
    refine ⟨?_, ?_, ?_, huniq, hacc, ?_⟩
    · simp only [List.map_append, List.map_cons, List.map_nil]
      rw [List.nodup_append]
      refine ⟨hpk, List.nodup_singleton _, ?_⟩
      intro n hn hn2
      rw [List.mem_singleton] at hn2
      rw [List.mem_map] at hn
      obtain ⟨T, hT, hTn⟩ := hn
      have := hnext T hT
      omega
    · intro T hT
      rcases List.mem_append.mp hT with h1 | h1
      · have := hnext T h1
        show T.table_number < db.next_table + 1
        omega
      · rw [List.mem_singleton] at h1
        subst h1
        show db.next_table < db.next_table + 1
        omega
    · intro T hT
      rcases List.mem_append.mp hT with h1 | h1
      · exact hseats T h1
      · rw [List.mem_singleton] at h1
        subst h1
        exact hrange
    · intro g hg
      obtain ⟨T, hT, hTn⟩ := hfk g hg
      exact ⟨T, List.mem_append_left _ hT, hTn⟩

theorem addGuestVia_WF (srv : Server) (used : Int → RowResult) (db : Store) (g : Guest)
    (now : String) (h : db.WF srv) : (addGuestVia srv used db g now).2.WF srv := by
  rcases addGuestVia_result srv used db g now with
    ⟨e, hsame⟩ | ⟨n, a, -, hs, hname, hT, -, -, hres⟩
  · rw [hsame]; exact h
  · rw [hres]
    obtain ⟨hpk, hnext, hseats, huniq, hacc, hfk⟩ := h
    refine ⟨hpk, hnext, hseats, ?_, ?_, ?_⟩
    · simp only [List.map_append, List.map_cons, List.map_nil]
      rw [List.nodup_append]
      refine ⟨huniq, List.nodup_singleton _, ?_⟩
      intro k hk hk2
      rw [List.mem_singleton] at hk2
      rw [List.mem_map] at hk
      obtain ⟨r, hr, hrn⟩ := hk
      exact hname r hr (by rw [hrn, hk2])
    · intro r hr
      rcases List.mem_append.mp hr with h1 | h1
      · exact hacc r h1
      · rw [List.mem_singleton] at h1
        subst h1
        exact storeUnsigned_range hs
    · intro r hr
      rcases List.mem_append.mp hr with h1 | h1
      · exact hfk r h1
      · rw [List.mem_singleton] at h1
        subst h1
        exact hT

theorem updateWhere_WF (srv : Server) (db : Store) (name : String)
    (set : GuestRow → GuestRow)
    (hn : ∀ g, (set g).guest_name = g.guest_name)
    (ht : ∀ g, (set g).table_number = g.table_number)
    (ha : ∀ g, 0 ≤ g.accompanying_guests ∧ g.accompanying_guests ≤ maxUnsigned →
      0 ≤ (set g).accompanying_guests ∧ (set g).accompanying_guests ≤ maxUnsigned)
    (h : db.WF srv) :
    Store.WF srv { db with guestlist := updateWhere srv name set db.guestlist } := by
  obtain ⟨hpk, hnext, hseats, huniq, hacc, hfk⟩ := h
  refine ⟨hpk, hnext, hseats, ?_, ?_, ?_⟩
  · show ((updateWhere srv name set db.guestlist).map
      (fun g => srv.collate g.guest_name)).Nodup
    rw [updateWhere_keys srv name set hn]
    exact huniq
  · intro r hr
    simp only [updateWhere, List.mem_map] at hr
    obtain ⟨r0, hr0, heq⟩ := hr
    split_ifs at heq
    · rw [← heq]; exact ha r0 (hacc r0 hr0)
    · rw [← heq]; exact hacc r0 hr0
  · intro r hr
    simp only [updateWhere, List.mem_map] at hr
    obtain ⟨r0, hr0, heq⟩ := hr
    split_ifs at heq
    · rw [← heq, ht]; exact hfk r0 hr0
    · rw [← heq]; exact hfk r0 hr0

theorem updateGuestVia_WF (srv : Server) (used : Int → RowResult) (db : Store) (g : Guest)
    (now : String) (h : db.WF srv) : (updateGuestVia srv used db g now).2.WF srv := by
  rcases updateGuestVia_result srv used db g now with ⟨e, hsame⟩ | ⟨row, -, -, -, hres⟩ |
    ⟨row, -, a, -, -, hs, -, -, hres⟩
  · rw [hsame]; exact h
  · rw [hres]
    exact updateWhere_WF srv db g.Name _ (fun _ => rfl) (fun _ => rfl) (fun _ hg => hg) h
  · rw [hres]
    exact updateWhere_WF srv db g.Name _ (fun _ => rfl) (fun _ => rfl)
      (fun _ _ => storeUnsigned_range hs) h

theorem deleteGuest_WF (srv : Server) (db : Store) (name : String) (h : db.WF srv) :
    (deleteGuest srv db name).2.WF srv := by
  obtain ⟨hpk, hnext, hseats, huniq, hacc, hfk⟩ := h
  refine ⟨hpk, hnext, hseats, ?_, ?_, ?_⟩
  · exact huniq.sublist ((List.filter_sublist _).map _)
  · intro r hr
    exact hacc r (List.mem_of_mem_filter hr)
  · intro r hr
    exact hfk r (List.mem_of_mem_filter hr)

theorem exec_WF (srv : Server) (db : Store) (op : Op) (h : db.WF srv) :
    (op.exec srv db).2.WF srv := by
  cases op with
  | addTable seats => exact addTable_WF srv db seats h
  | addGuest g now fault =>
    cases fault with
    | none => exact addGuestVia_WF srv db.sumUsedAt db g now h
    | some e => exact addGuestVia_WF srv (fun _ => .failed e) db g now h
  | updateGuest g now fault =>
    cases fault with
    | none => exact updateGuestVia_WF srv db.sumUsedAt db g now h
    | some e => exact updateGuestVia_WF srv (fun _ => .failed e) db g now h
  | deleteGuest name => exact deleteGuest_WF srv db name h

/-! ## The capacity invariant is kept by every request the store answers -/

theorem addTable_keeps_capacity (srv : Server) (db : Store) (seats : Int) (hwf : db.WF srv)
    (hinv : capacityInvariant db) : capacityInvariant (addTable db seats).2 := by
  unfold addTable Store.insertVenue
  cases hs : storeUnsigned db.strict_mode seats with
  | error e => exact hinv
  | ok s =>
    obtain ⟨-, hnext, -, -, -, hfk⟩ := hwf
    intro T hT
    rcases List.mem_append.mp hT with h1 | h1
    · exact hinv T h1
    · rw [List.mem_singleton] at h1
      subst h1
      have hzero : occupied db.guestlist db.next_table = 0 := by
        apply occupied_eq_zero
        intro g hg heq
        obtain ⟨T, hT, hTn⟩ := hfk g hg
        have := hnext T hT
        omega
      show occupied db.guestlist db.next_table ≤ s
      rw [hzero]
      exact (storeUnsigned_range hs).1

/-- Where the schema constraints and the capacity invariant hold, the free
seats of a table are between 0 and the largest unsigned value. -/
theorem freeSeats_in_range (srv : Server) (db : Store) (T : Table) (hwf : db.WF srv)
    (hinv : capacityInvariant db) (hT : T ∈ db.venue) :
    0 ≤ T.seats - occupiedSeats db T.table_number ∧
    T.seats - occupiedSeats db T.table_number ≤ 4294967295 := by
  have h1 := hinv T hT
  have h2 : 0 ≤ occupiedSeats db T.table_number :=
    occupied_nonneg db.guestlist T.table_number (fun r hr => (hwf.2.2.2.2.1 r hr).1)
  have h3 := hwf.2.2.1 T hT
  simp only [maxUnsigned] at h3
  omega

theorem addGuest_keeps_capacity (srv : Server) (db : Store) (g : Guest) (now : String)
    (hwf : db.WF srv) (hinv : capacityInvariant db)
    (hp : 0 ≤ g.AccompanyingGuests ∧ g.AccompanyingGuests ≤ maxInt64) :
    capacityInvariant (addGuest srv db g now).2 := by
  rcases addGuestVia_result srv db.sumUsedAt db g now with
    ⟨e, hsame⟩ | ⟨n, a, -, hs, -, ⟨T, hT, hTn⟩, -, hfree, hres⟩
  · rw [addGuestVia_store] at hsame
    rw [hsame]; exact hinv
  · rw [addGuestVia_store] at hres
    rw [hres]
    intro T1 hT1
    show occupied (db.guestlist ++ [⟨n, g.Table, a, srv.insertTime now, false⟩])
      T1.table_number ≤ T1.seats
    rw [occupied_append, occupied_cons, occupied_nil]
    have hold := hinv T1 hT1
    unfold occupiedSeats at hold
    by_cases heq : g.Table = T1.table_number
    · have hTT : T = T1 :=
        List.inj_on_of_nodup_map hwf.1 hT hT1 (by show T.table_number = T1.table_number; omega)
      subst hTT
      rw [getFreeSeatsVia_store, ← hTn, getFreeSeats_table db T hwf.1 hT] at hfree
      have hrange := freeSeats_in_range srv db T hwf hinv hT
      have hle := storeUnsigned_le hp.1 hs
      simp only [maxInt64] at hp
      rw [wrap64_sub_sub (by omega) (by omega)] at hfree
      unfold occupiedSeats at hfree
      simp only [heq, if_true]
      omega
    · simp only [heq, if_false]
      omega

theorem updateGuest_keeps_capacity (srv : Server) (db : Store) (g : Guest) (now : String)
    (hwf : db.WF srv) (hinv : capacityInvariant db)
    (hp : 0 ≤ g.AccompanyingGuests ∧ g.AccompanyingGuests ≤ maxInt64) :
    capacityInvariant (updateGuest srv db g now).2 := by
  rcases updateGuestVia_result srv db.sumUsedAt db g now with
    ⟨e, hsame⟩ | ⟨row, hrow, hname, -, hres⟩ | ⟨row, hrow, a, hname, -, hs, -, hfree, hres⟩
  · rw [updateGuestVia_store] at hsame
    rw [hsame]; exact hinv
  · rw [updateGuestVia_store] at hres
    rw [hres, ← nameMatches_congr_update srv hname]
    intro T1 hT1
    show occupied (updateWhere srv row.guest_name (GuestRow.setArrived now) db.guestlist)
      T1.table_number ≤ T1.seats
    rw [occupied_updateWhere srv (GuestRow.setArrived now) (fun _ => rfl) row T1.table_number
      db.guestlist hwf.2.2.2.1 hrow]
    have hold := hinv T1 hT1
    unfold occupiedSeats at hold
    simp only [GuestRow.setArrived, sub_self, ite_self, add_zero]
    exact hold
  · rw [updateGuestVia_store] at hres
    rw [hres, ← nameMatches_congr_update srv hname]
    intro T1 hT1
    show occupied (updateWhere srv row.guest_name (GuestRow.setParty a now) db.guestlist)
      T1.table_number ≤ T1.seats
    rw [occupied_updateWhere srv (GuestRow.setParty a now) (fun _ => rfl) row T1.table_number
      db.guestlist hwf.2.2.2.1 hrow]
    have hold := hinv T1 hT1
    unfold occupiedSeats at hold
    obtain ⟨T, hT, hTn⟩ := hwf.2.2.2.2.2 row hrow
    by_cases heq : row.table_number = T1.table_number
    · have hTT : T = T1 :=
        List.inj_on_of_nodup_map hwf.1 hT hT1 (by show T.table_number = T1.table_number; omega)
      subst hTT
      rw [getFreeSeatsVia_store, ← hTn, getFreeSeats_table db T hwf.1 hT] at hfree
      have hrange := freeSeats_in_range srv db T hwf hinv hT
      have hprev := hwf.2.2.2.2.1 row hrow
      have hle := storeUnsigned_le hp.1 hs
      simp only [maxInt64] at hp
      simp only [maxUnsigned] at hprev
      rw [wrap64_add_sub (by omega) (by omega) (by omega) (by omega)] at hfree
      unfold occupiedSeats at hfree
      simp only [heq, if_true, GuestRow.setParty]
      omega
    · simp only [heq, if_false]
      omega

theorem deleteGuest_keeps_capacity (srv : Server) (db : Store) (name : String)
    (hwf : db.WF srv) (hinv : capacityInvariant db) :
    capacityInvariant (deleteGuest srv db name).2 := by
  intro T hT
  have hold := hinv T hT
  have hle := occupied_filter_le (fun g => !(nameMatches srv name g)) T.table_number
    db.guestlist (fun g hg => (hwf.2.2.2.2.1 g hg).1)
  unfold occupiedSeats at hold
  show occupied (db.guestlist.filter (fun g => !(nameMatches srv name g))) T.table_number
    ≤ T.seats
  omega

theorem exec_keeps_capacity (srv : Server) (db : Store) (op : Op) (hwf : db.WF srv)
    (hinv : capacityInvariant db)
    (hp : 0 ≤ op.partySize ∧ op.partySize ≤ maxInt64) (hf : op.fault = none) :
    capacityInvariant (op.exec srv db).2 := by
  cases op with
  | addTable seats => exact addTable_keeps_capacity srv db seats hwf hinv
  | addGuest g now fault =>
    cases fault with
    | none => exact addGuest_keeps_capacity srv db g now hwf hinv hp
    | some e => cases hf
  | updateGuest g now fault =>
    cases fault with
    | none => exact updateGuest_keeps_capacity srv db g now hwf hinv hp
    | some e => cases hf
  | deleteGuest name => exact deleteGuest_keeps_capacity srv db name hwf hinv

theorem run_keeps (srv : Server) (ops : List Op) :
    ∀ (db : Store), db.WF srv → capacityInvariant db →
      (∀ op ∈ ops, 0 ≤ op.partySize ∧ op.partySize ≤ maxInt64 ∧ op.fault = none) →
      (run srv db ops).WF srv ∧ capacityInvariant (run srv db ops) := by
  induction ops with
  | nil => intro db hwf hinv _; exact ⟨hwf, hinv⟩
  | cons op ops ih =>
    intro db hwf hinv hops
    have hp := hops op (List.mem_cons_self _ _)
    exact ih (op.exec srv db).2 (exec_WF srv db op hwf)
      (exec_keeps_capacity srv db op hwf hinv ⟨hp.1, hp.2.1⟩ hp.2.2)
      (fun o ho => hops o (List.mem_cons_of_mem _ ho))

/-- What holds of the capacity invariant: from any state of the store that
meets the schema constraints and in which no table holds more than its
seats, after every prefix of a sequence of requests with party sizes
between 0 and the largest `int`, each served by a store that answers its
occupancy query, every table still holds at most its seats. -/
theorem capacity_kept_when_answered (srv : Server) (db : Store) (ops : List Op)
    (hwf : db.WF srv) (hinv : capacityInvariant db)
    (hops : ∀ op ∈ ops, 0 ≤ op.partySize ∧ op.partySize ≤ maxInt64 ∧ op.fault = none)
    (k : Nat) : capacityInvariant (run srv db (ops.take k)) :=
  (run_keeps srv (ops.take k) db hwf hinv
    (fun op hop => hops op (List.mem_of_mem_take hop))).2

/-- The test store, a request sequence with failing and succeeding requests served
by an answering store, and the state after five of them. -/
theorem capacity_kept_when_answered_example :
    db12.WF serverNull ∧ capacityInvariant db12 ∧
    capacityInvariant (run serverNull db12 (opsExample.take 5)) :=
  ⟨by decide, by decide,
    capacity_kept_when_answered serverNull db12 opsExample (by decide) (by decide)
      (by decide) 5⟩

/-- C1 fails on the code.  The store `db4A` meets the schema constraints and
the capacity invariant (table 1: 4 seats, 3 occupied).  One registration
with a non-negative party size, served while the occupancy query of
`getFreeSeats` fails, is accepted and leaves table 1 with 7 occupied seats;
so does one arrival, with 6 occupied seats.  The same requests served by an
answering store are rejected and keep the invariant. -/
theorem capacity_broken_by_failed_query :
    db4A.WF serverNull ∧ capacityInvariant db4A ∧
    run serverNull db4A
        [.addGuest { Name := "B", Table := 1, AccompanyingGuests := 3 } "t" (some .badConn)] =
      { db4A with guestlist := [⟨"A", 1, 2, none, false⟩, ⟨"B", 1, 3, none, false⟩] } ∧
    occupiedSeats (run serverNull db4A
        [.addGuest { Name := "B", Table := 1, AccompanyingGuests := 3 } "t" (some .badConn)])
      1 = 7 ∧
    ¬ capacityInvariant (run serverNull db4A
        [.addGuest { Name := "B", Table := 1, AccompanyingGuests := 3 } "t" (some .badConn)]) ∧
    ¬ capacityInvariant (run serverNull db4A
        [.updateGuest { Name := "A", AccompanyingGuests := 5 } "t" (some .badConn)]) ∧
    capacityInvariant (run serverNull db4A
        [.addGuest { Name := "B", Table := 1, AccompanyingGuests := 3 } "t" none,
         .updateGuest { Name := "A", AccompanyingGuests := 5 } "t" none]) := by
  decide

/-! ## Registration and arrival against the free seats of the table -/

theorem insertGuest_ok (srv : Server) (db : Store) (name : String) (table acc : Int)
    (T : Table) (now : String) (hT : T ∈ db.venue) (hTn : T.table_number = table)
    (hfresh : ∀ r ∈ db.guestlist, srv.collate r.guest_name ≠ srv.collate name)
    (hfit : nameFits name = true) (h0 : 0 ≤ acc) (h1 : acc ≤ maxUnsigned) :
    db.insertGuest srv name table acc false now =
      (none,
        { db with guestlist :=
            db.guestlist ++ [⟨name, table, acc, srv.insertTime now, false⟩] }) := by
  have hdup : db.guestlist.any (nameMatches srv name) = false := by
    rw [List.any_eq_false]
    intro r hr
    rw [nameMatches_iff]
    exact hfresh r hr
  have hfk : db.venue.any (fun t => t.table_number == table) = true := by
    rw [List.any_eq_true]
    exact ⟨T, hT, by simp [hTn]⟩
  simp [Store.insertGuest, storeName_of_fits srv db.strict_mode hfit,
    storeUnsigned_of_range db.strict_mode h0 h1, hdup, hfk]

theorem addGuest_outcome (srv : Server) (db : Store) (g : Guest) (T : Table) (now : String)
    (hwf : db.WF srv) (hT : T ∈ db.venue) (hTn : T.table_number = g.Table)
    (hfresh : ∀ r ∈ db.guestlist, srv.collate r.guest_name ≠ srv.collate g.Name)
    (hfit : nameFits g.Name = true) (ha : 0 ≤ g.AccompanyingGuests)
    (hnowrap : minInt64 ≤
      T.seats - occupiedSeats db T.table_number - (g.AccompanyingGuests + 1)) :
    (T.seats - occupiedSeats db T.table_number - (g.AccompanyingGuests + 1) < 0 →
      addGuest srv db g now = (some .unableToAddGuest, db)) ∧
    (¬ (T.seats - occupiedSeats db T.table_number - (g.AccompanyingGuests + 1) < 0) →
      addGuest srv db g now =
        (none,
          { db with guestlist := db.guestlist ++
              [⟨g.Name, g.Table, g.AccompanyingGuests, srv.insertTime now, false⟩] })) := by
  have hfs := getFreeSeats_table db T hwf.1 hT
  rw [hTn] at hfs hnowrap
  have hocc : 0 ≤ occupiedSeats db g.Table :=
    occupied_nonneg db.guestlist g.Table (fun r hr => (hwf.2.2.2.2.1 r hr).1)
  have hseats := (hwf.2.2.1 T hT).2
  simp only [maxUnsigned] at hseats
  simp only [minInt64] at hnowrap
  have hw : wrap64 (wrap64 (T.seats - occupiedSeats db g.Table - g.AccompanyingGuests) - 1) =
      T.seats - occupiedSeats db g.Table - g.AccompanyingGuests - 1 :=
    wrap64_sub_sub (by omega) (by omega)
  constructor
  · intro hlt
    have hlt2 : T.seats - occupiedSeats db g.Table - g.AccompanyingGuests - 1 < 0 := by
      rw [hTn] at hlt; omega
    simp only [addGuest, hfs, hw]
    simp [hlt2]
  · intro hge
    have hge2 : ¬ (T.seats - occupiedSeats db g.Table - g.AccompanyingGuests - 1 < 0) := by
      rw [hTn] at hge; omega
    have hmax : g.AccompanyingGuests ≤ maxUnsigned := by
      simp only [maxUnsigned]
      omega
    simp only [addGuest, hfs, hw]
    simp [hge2, insertGuest_ok srv db g.Name g.Table g.AccompanyingGuests T now hT hTn
      hfresh hfit ha hmax]

theorem updateParty_ok (srv : Server) (db : Store) (row : GuestRow) (acc : Int)
    (now : String) (huniq : (db.guestlist.map (fun g => srv.collate g.guest_name)).Nodup)
    (hrow : row ∈ db.guestlist) (h0 : 0 ≤ acc) (h1 : acc ≤ maxUnsigned) :
    db.updateParty srv row.guest_name acc now =
      (none, { db with guestlist := db.guestlist.map (fun r =>
        if r = row then GuestRow.setParty acc now row else r) }) := by
  have hany : db.guestlist.any (nameMatches srv row.guest_name) = true := by
    rw [List.any_eq_true]
    exact ⟨row, hrow, nameMatches_self srv row⟩
  simp [Store.updateParty, hany, storeUnsigned_of_range db.strict_mode h0 h1,
    updateWhere_unique srv (GuestRow.setParty acc now) row db.guestlist huniq hrow]

theorem updateGuest_outcome (srv : Server) (db : Store) (g : Guest) (now : String)
    (row : GuestRow) (T : Table) (hwf : db.WF srv) (hrow : row ∈ db.guestlist)
    (hname : srv.collate row.guest_name = srv.collate g.Name)
    (hT : T ∈ db.venue) (hTn : T.table_number = row.table_number)
    (hne : g.AccompanyingGuests ≠ row.accompanying_guests)
    (hn : 0 ≤ g.AccompanyingGuests)
    (hnowrap : minInt64 ≤ T.seats - occupiedSeats db row.table_number +
      row.accompanying_guests - g.AccompanyingGuests) :
    (T.seats - occupiedSeats db row.table_number + row.accompanying_guests
        - g.AccompanyingGuests < 0 →
      updateGuest srv db g now = (some .unableToAddGuest, db)) ∧
    (¬ (T.seats - occupiedSeats db row.table_number + row.accompanying_guests
        - g.AccompanyingGuests < 0) →
      updateGuest srv db g now =
        (none, { db with guestlist := db.guestlist.map (fun r =>
          if r = row then GuestRow.setParty g.AccompanyingGuests now row else r) })) := by
  have hfs := getFreeSeats_table db T hwf.1 hT
  rw [hTn] at hfs
  have hf := find?_named srv g.Name row db.guestlist hwf.2.2.2.1 hrow hname
  have hne2 : ¬ row.accompanying_guests = g.AccompanyingGuests := fun h => hne h.symm
  have hself : row.accompanying_guests + 1 ≤ occupiedSeats db row.table_number := by
    have h := occupied_delete srv row row.table_number db.guestlist hwf.2.2.2.1 hrow
    have h2 := occupied_nonneg
      (db.guestlist.filter (fun g => !(nameMatches srv row.guest_name g))) row.table_number
      (fun r hr => (hwf.2.2.2.2.1 r (List.mem_of_mem_filter hr)).1)
    unfold occupiedSeats
    simp only [if_true] at h
    omega
  have hseats := (hwf.2.2.1 T hT).2
  have hprev := hwf.2.2.2.2.1 row hrow
  simp only [maxUnsigned] at hseats hprev
  simp only [minInt64] at hnowrap
  have hw : wrap64 (wrap64 (T.seats - occupiedSeats db row.table_number +
      row.accompanying_guests) - g.AccompanyingGuests) =
      T.seats - occupiedSeats db row.table_number + row.accompanying_guests
        - g.AccompanyingGuests :=
    wrap64_add_sub (by omega) (by omega) (by omega) (by omega)
  constructor
  · intro hlt
    simp only [updateGuest, hf, hfs, hw]
    simp [hne2, hlt]
  · intro hge
    have hmax : g.AccompanyingGuests ≤ maxUnsigned := by
      simp only [maxUnsigned]
      omega
    have hup := updateParty_ok srv db row g.AccompanyingGuests now hwf.2.2.2.1 hrow hn hmax
    have hcongr : db.updateParty srv g.Name g.AccompanyingGuests now =
        db.updateParty srv row.guest_name g.AccompanyingGuests now := by
      unfold Store.updateParty updateWhere
      rw [nameMatches_congr srv hname]
    simp only [updateGuest, hf, hfs, hw]
    simp [hne2, hge, hcongr, hup]

theorem updateGuest_unchanged_outcome (srv : Server) (db : Store) (g : Guest) (now : String)
    (row : GuestRow) (huniq : (db.guestlist.map (fun r => srv.collate r.guest_name)).Nodup)
    (hrow : row ∈ db.guestlist) (hname : srv.collate row.guest_name = srv.collate g.Name)
    (hp : row.accompanying_guests = g.AccompanyingGuests) :
    updateGuest srv db g now =
      (none, { db with guestlist := db.guestlist.map (fun r =>
        if r = row then GuestRow.setArrived now row else r) }) := by
  have hf := find?_named srv g.Name row db.guestlist huniq hrow hname
  have hu := updateWhere_unique srv (GuestRow.setArrived now) row db.guestlist huniq hrow
  rw [nameMatches_congr_update srv hname] at hu
  simp [updateGuest, hf, hp, Store.updateArrived, hu]

/-! ## Claims on registration and arrival -/

/-- C2, as stated, fails.  A name of 65 characters that is in no row is
refused by the column although the table has the free seats (strict mode);
the name "x" is in no row of a ledger that holds "X", and its registration is
a duplicate under the case-insensitive comparison of the column; and on a
server that fills the TIMESTAMP column the inserted row has the time of the
INSERT as `time_arrived`, not NULL. -/
theorem register_name_or_time_differs :
    (db12.WF serverNull ∧ ⟨1, 12⟩ ∈ db12.venue ∧
      (∀ r ∈ db12.guestlist, r.guest_name ≠ longName) ∧
      ¬ ((12 : Int) - occupiedSeats db12 1 - (0 + 1) < 0) ∧
      addGuest serverNull db12 { Name := longName, Table := 1, AccompanyingGuests := 0 } "t" =
        (some .dataTooLong, db12)) ∧
    (dbX.WF serverNull ∧ ⟨1, 6⟩ ∈ dbX.venue ∧
      (∀ r ∈ dbX.guestlist, r.guest_name ≠ "x") ∧
      ¬ ((6 : Int) - occupiedSeats dbX 1 - (0 + 1) < 0) ∧
      addGuest serverNull dbX { Name := "x", Table := 1, AccompanyingGuests := 0 } "t" =
        (some .duplicateEntry, dbX)) ∧
    addGuest serverAuto db4 { Name := "A", Table := 1, AccompanyingGuests := 2 } "t" =
      (none, { db4 with guestlist := [⟨"A", 1, 2, some "t", false⟩] }) := by
  decide

/-- C2, amended.  In a state of the store that meets the schema constraints,
registering at an existing table a guest whose name fits the `guest_name`
column (at most 64 characters of its character set) and equals no name of
the ledger under the collation of the column, with a party size a >= 0 for
which the 64-bit subtraction free seats - a - 1 does not wrap around (it
cannot where the table is not over capacity): the call returns the capacity
error "unable to add guest" and leaves the store as it was exactly when the
free seats of the table minus (a + 1) is negative; otherwise it returns no
error and the ledger is the old one followed by the single new row (name,
table, a, not arrived) whose `time_arrived` is what the server gives a
column the INSERT does not write: NULL, or the time of the INSERT on a
server that fills the column. -/
theorem addGuest_capacity_check (srv : Server) (db : Store) (g : Guest) (T : Table)
    (now : String) (hwf : db.WF srv) (hT : T ∈ db.venue) (hTn : T.table_number = g.Table)
    (hfresh : ∀ r ∈ db.guestlist, srv.collate r.guest_name ≠ srv.collate g.Name)
    (hfit : nameFits g.Name = true) (ha : 0 ≤ g.AccompanyingGuests)
    (hnowrap : minInt64 ≤
      T.seats - occupiedSeats db T.table_number - (g.AccompanyingGuests + 1)) :
    (addGuest srv db g now = (some .unableToAddGuest, db) ↔
      T.seats - occupiedSeats db T.table_number - (g.AccompanyingGuests + 1) < 0) ∧
    (¬ (T.seats - occupiedSeats db T.table_number - (g.AccompanyingGuests + 1) < 0) →
      addGuest srv db g now =
        (none,
          { db with guestlist := db.guestlist ++
              [⟨g.Name, g.Table, g.AccompanyingGuests, srv.insertTime now, false⟩] })) ∧
    (srv.auto_timestamp = false → srv.insertTime now = none) ∧
    (srv.auto_timestamp = true → srv.insertTime now = some now) := by
  have h := addGuest_outcome srv db g T now hwf hT hTn hfresh hfit ha hnowrap
  refine ⟨⟨?_, h.1⟩, h.2, ?_, ?_⟩
  · intro hres
    by_contra hge
    rw [h.2 hge] at hres
    cases hres
  · intro hs; simp [Server.insertTime, hs]
  · intro hs; simp [Server.insertTime, hs]

/-- Witness of C2 (amended): a party of 12 + 1 is rejected at an empty table of 12
seats; at a table of 4 seats guest A with two companions is registered and
guest B with one companion is then rejected. -/
theorem addGuest_capacity_check_witness :
    addGuest serverNull db12 { Name := "TestGuest2", Table := 1, AccompanyingGuests := 12 }
        "t" = (some .unableToAddGuest, db12) ∧
    addGuest serverNull db4 { Name := "A", Table := 1, AccompanyingGuests := 2 } "t" =
      (none, db4A) ∧
    addGuest serverNull db4A { Name := "B", Table := 1, AccompanyingGuests := 1 } "t" =
      (some .unableToAddGuest, db4A) :=
  ⟨(addGuest_capacity_check serverNull db12
      { Name := "TestGuest2", Table := 1, AccompanyingGuests := 12 } ⟨1, 12⟩ "t"
      (by decide) (by decide) rfl (by decide) (by decide) (by decide)
      (by decide)).1.mpr (by decide),
   (addGuest_capacity_check serverNull db4 { Name := "A", Table := 1, AccompanyingGuests := 2 }
      ⟨1, 4⟩ "t" (by decide) (by decide) rfl (by decide) (by decide) (by decide)
      (by decide)).2.1 (by decide),
   (addGuest_capacity_check serverNull db4A
      { Name := "B", Table := 1, AccompanyingGuests := 1 } ⟨1, 4⟩ "t"
      (by decide) (by decide) rfl (by decide) (by decide) (by decide)
      (by decide)).1.mpr (by decide)⟩

/-- The 64-bit arithmetic of `addGuest` at an over-capacity table: with free
seats -6 and the largest `int` as party size the value free seats - a - 1
wraps around to 2^63 - 6, the check passes and the INSERT is issued; without
strict mode the row is stored with 4294967295 accompanying guests, in strict
mode the statement fails with "out of range". -/
theorem addGuest_check_wraps_around :
    getFreeSeats dbOverTwo 1 false = (-6, none) ∧
    wrap64 (wrap64 (-6 - maxInt64) - 1) = 9223372036854775802 ∧
    addGuest serverNull dbOverTwo { Name := "Z", Table := 1, AccompanyingGuests := maxInt64 }
        "t" =
      (none,
        { dbOverTwo with guestlist :=
            [⟨"X", 1, 3, none, false⟩, ⟨"Y", 1, 3, none, false⟩,
             ⟨"Z", 1, 4294967295, none, false⟩] }) ∧
    addGuest serverNull { dbOverTwo with strict_mode := true }
        { Name := "Z", Table := 1, AccompanyingGuests := maxInt64 } "t" =
      (some .outOfRange, { dbOverTwo with strict_mode := true }) := by
  decide

/-- C3 fails on the code.  At a table of 2 seats that holds X and Y with three
accompanying guests each (free seats -6), the arrival of X with the largest
`int` as party size has free seats + 3 - n negative, so the claim asks for
the capacity error and an unchanged store; the 64-bit arithmetic of
`updateGuest` wraps around to 2^63 - 2, the check passes and the UPDATE is
issued: without strict mode X is stored with 4294967295 accompanying guests
and arrived, in strict mode the statement fails with "out of range". -/
theorem arrival_check_wraps_around :
    dbOverTwo.WF serverNull ∧ getFreeSeats dbOverTwo 1 false = (-6, none) ∧
    (-6 : Int) + 3 - maxInt64 < 0 ∧
    wrap64 (wrap64 (-6 + 3) - maxInt64) = 9223372036854775806 ∧
    updateGuest serverNull dbOverTwo { Name := "X", AccompanyingGuests := maxInt64 } "t" =
      (none,
        { dbOverTwo with guestlist :=
            [⟨"X", 1, 4294967295, some "t", true⟩, ⟨"Y", 1, 3, none, false⟩] }) ∧
    updateGuest serverNull { dbOverTwo with strict_mode := true }
        { Name := "X", AccompanyingGuests := maxInt64 } "t" =
      (some .outOfRange, { dbOverTwo with strict_mode := true }) := by
  decide

/-- Arrival of a registered guest with a party size n >= 0 different from the
stored one, where the 64-bit computation free seats + stored size - n does
not wrap around: when that value is negative the call
returns the capacity error and the store is unchanged; otherwise it returns
no error and the ledger differs only in the row of the guest, which keeps
its name and table and has the new party size, the arrival time and
arrived = true. -/
theorem updateGuest_changed_party (srv : Server) (db : Store) (g : Guest) (now : String)
    (row : GuestRow) (T : Table) (hwf : db.WF srv) (hrow : row ∈ db.guestlist)
    (hname : srv.collate row.guest_name = srv.collate g.Name)
    (hT : T ∈ db.venue) (hTn : T.table_number = row.table_number)
    (hne : g.AccompanyingGuests ≠ row.accompanying_guests)
    (hn : 0 ≤ g.AccompanyingGuests)
    (hnowrap : minInt64 ≤ T.seats - occupiedSeats db row.table_number +
      row.accompanying_guests - g.AccompanyingGuests) :
    (T.seats - occupiedSeats db row.table_number + row.accompanying_guests
        - g.AccompanyingGuests < 0 →
      updateGuest srv db g now = (some .unableToAddGuest, db)) ∧
    (¬ (T.seats - occupiedSeats db row.table_number + row.accompanying_guests
        - g.AccompanyingGuests < 0) →
      updateGuest srv db g now =
        (none, { db with guestlist := db.guestlist.map (fun r =>
          if r = row then
            { guest_name := row.guest_name, table_number := row.table_number,
              accompanying_guests := g.AccompanyingGuests, time_arrived := some now,
              arrived := true }
          else r) })) :=
  updateGuest_outcome srv db g now row T hwf hrow hname hT hTn hne hn hnowrap

/-- The two arrivals of test `TestHandlerGuestArrives`: TestGuest1 (4 registered) arrives
with 6 and is accepted, TestGuest2 (8 registered) arrives with 12 and is rejected. -/
theorem updateGuest_changed_party_witness :
    updateGuest serverNull db12Three { Name := "TestGuest1", AccompanyingGuests := 6 } "t" =
      (none, { db12 with guestlist :=
        [⟨"TestGuest1", 2, 6, some "t", true⟩, ⟨"TestGuest2", 3, 8, none, false⟩,
         ⟨"TestGuest3", 1, 0, none, false⟩] }) ∧
    updateGuest serverNull db12Three { Name := "TestGuest2", AccompanyingGuests := 12 } "t" =
      (some .unableToAddGuest, db12Three) :=
  ⟨(updateGuest_changed_party serverNull db12Three
      { Name := "TestGuest1", AccompanyingGuests := 6 } "t"
      ⟨"TestGuest1", 2, 4, none, false⟩ ⟨2, 12⟩ (by decide) (by decide) rfl (by decide) rfl
      (by decide) (by decide) (by decide)).2 (by decide),
   (updateGuest_changed_party serverNull db12Three
      { Name := "TestGuest2", AccompanyingGuests := 12 } "t"
      ⟨"TestGuest2", 3, 8, none, false⟩ ⟨3, 12⟩ (by decide) (by decide) rfl (by decide) rfl
      (by decide) (by decide) (by decide)).1 (by decide)⟩

/-- C4. Arrival of a registered guest with the stored party size, in any
state of the store (the table may be full or over capacity): the call
returns no error, the ledger differs only in the row of the guest, which keeps
its name, table and party size and gets the arrival time and arrived = true,
and the occupied seats of every table are unchanged.  The guest is the row
whose name equals the requested one under the collation of the column, and
the names of the ledger are UNIQUE under it. -/
theorem updateGuest_same_party (srv : Server) (db : Store) (g : Guest) (now : String)
    (row : GuestRow)
    (huniq : (db.guestlist.map (fun r => srv.collate r.guest_name)).Nodup)
    (hrow : row ∈ db.guestlist) (hname : srv.collate row.guest_name = srv.collate g.Name)
    (hp : row.accompanying_guests = g.AccompanyingGuests) :
    updateGuest srv db g now =
      (none, { db with guestlist := db.guestlist.map (fun r =>
        if r = row then
          { guest_name := row.guest_name, table_number := row.table_number,
            accompanying_guests := row.accompanying_guests, time_arrived := some now,
            arrived := true }
        else r) }) ∧
    ∀ t, occupiedSeats (updateGuest srv db g now).2 t = occupiedSeats db t := by
  have h := updateGuest_unchanged_outcome srv db g now row huniq hrow hname hp
  refine ⟨h, ?_⟩
  intro t
  rw [h, ← updateWhere_unique srv (GuestRow.setArrived now) row db.guestlist huniq hrow]
  show occupied (updateWhere srv row.guest_name (GuestRow.setArrived now) db.guestlist) t =
    occupied db.guestlist t
  rw [occupied_updateWhere srv (GuestRow.setArrived now) (fun _ => rfl) row t db.guestlist
    huniq hrow]
  simp [GuestRow.setArrived]

/-- Witness of C4: a guest arrives with the registered party at a table that is over
capacity; the request writes the name in lower case. -/
theorem updateGuest_same_party_witness :
    ¬ capacityInvariant dbOver ∧
    updateGuest serverNull dbOver { Name := "X", AccompanyingGuests := 3 } "t" =
      (none, { dbOver with guestlist := [⟨"X", 1, 3, some "t", true⟩] }) ∧
    updateGuest serverNull dbOver { Name := "x", AccompanyingGuests := 3 } "t" =
      (none, { dbOver with guestlist := [⟨"X", 1, 3, some "t", true⟩] }) :=
  ⟨by decide,
   (updateGuest_same_party serverNull dbOver { Name := "X", AccompanyingGuests := 3 } "t"
      ⟨"X", 1, 3, none, false⟩ (by decide) (by decide) rfl rfl).1,
   (updateGuest_same_party serverNull dbOver { Name := "x", AccompanyingGuests := 3 } "t"
      ⟨"X", 1, 3, none, false⟩ (by decide) (by decide) (by decide) rfl).1⟩

/-- C5, as stated, fails: with X registered with one accompanying guest and
4 free seats at the table, the arrival of X with 5 accompanying guests is
not rejected; it returns no error and X is then stored with 5 accompanying
guests and arrived. -/
theorem record_arrival_five_accepted :
    dbX.WF serverNull ∧ getFreeSeats dbX 1 false = (4, none) ∧
    getGuest serverNull dbX "X" =
      ({ Name := "X", Table := 1, AccompanyingGuests := 1, Arrived := 0 }, none) ∧
    updateGuest serverNull dbX { Name := "X", AccompanyingGuests := 5 } "t" ≠
      (some .unableToAddGuest, dbX) ∧
    (updateGuest serverNull dbX { Name := "X", AccompanyingGuests := 5 } "t").1 = none ∧
    getGuest serverNull (updateGuest serverNull dbX
        { Name := "X", AccompanyingGuests := 5 } "t").2 "X" =
      ({ Name := "X", Table := 1, AccompanyingGuests := 5, Arrived := 1 }, none) := by
  decide

/-- C5, amended. Where guest X is registered with one accompanying guest at
a table whose free seats are 4, the arrival of X with 5 accompanying guests
returns no error, and only the row of X changes: it has 5 accompanying guests,
the arrival time and arrived = true; the arrival of X with 6 accompanying
guests returns the capacity error and leaves the store unchanged. -/
theorem record_arrival_scenario (srv : Server) (db : Store) (row : GuestRow) (now : String)
    (hwf : db.WF srv) (hrow : row ∈ db.guestlist) (hX : row.guest_name = "X")
    (hp : row.accompanying_guests = 1)
    (hfree : getFreeSeats db row.table_number false = (4, none)) :
    updateGuest srv db { Name := "X", AccompanyingGuests := 5 } now =
      (none, { db with guestlist := db.guestlist.map (fun r =>
        if r = row then
          { guest_name := "X", table_number := row.table_number, accompanying_guests := 5,
            time_arrived := some now, arrived := true }
        else r) }) ∧
    updateGuest srv db { Name := "X", AccompanyingGuests := 6 } now =
      (some .unableToAddGuest, db) := by
  obtain ⟨T, hT, hTn⟩ := hwf.2.2.2.2.2 row hrow
  have hfs := getFreeSeats_table db T hwf.1 hT
  rw [hTn, hfree] at hfs
  have h4 : T.seats - occupiedSeats db row.table_number = 4 := by
    have := congrArg Prod.fst hfs
    simpa using this.symm
  have hkey : srv.collate row.guest_name = srv.collate "X" := by rw [hX]
  have h5 := (updateGuest_outcome srv db { Name := "X", AccompanyingGuests := 5 } now row T
    hwf hrow hkey hT hTn (by simp [hp]) (by simp)
    (by simp only [hp, h4, minInt64]; decide)).2 (by simp only [hp, h4]; decide)
  have h6 := (updateGuest_outcome srv db { Name := "X", AccompanyingGuests := 6 } now row T
    hwf hrow hkey hT hTn (by simp [hp]) (by simp)
    (by simp only [hp, h4, minInt64]; decide)).1 (by simp only [hp, h4]; decide)
  refine ⟨?_, h6⟩
  rw [h5]
  simp [GuestRow.setParty, hX]

/-- Witness of C5 (amended): the store with X at a table of 6 seats. -/
theorem record_arrival_scenario_witness :
    updateGuest serverNull dbX { Name := "X", AccompanyingGuests := 5 } "t" =
      (none, { dbX with guestlist := [⟨"X", 1, 5, some "t", true⟩] }) ∧
    updateGuest serverNull dbX { Name := "X", AccompanyingGuests := 6 } "t" =
      (some .unableToAddGuest, dbX) :=
  record_arrival_scenario serverNull dbX ⟨"X", 1, 1, none, false⟩ "t" (by decide) (by decide)
    rfl rfl (by decide)

/-! ## Departure -/

theorem addGuestVia_success (srv : Server) (used : Int → RowResult) (db : Store) (g : Guest)
    (n : String) (a : Int) (now : String)
    (hn : storeName srv db.strict_mode g.Name = .ok n)
    (ha : storeUnsigned db.strict_mode g.AccompanyingGuests = .ok a)
    (hfresh : ∀ r ∈ db.guestlist, srv.collate r.guest_name ≠ srv.collate n)
    (hT : ∃ T ∈ db.venue, T.table_number = g.Table)
    (herr : (getFreeSeatsVia used db g.Table).2 = none)
    (hfree : 0 ≤
      wrap64 (wrap64 ((getFreeSeatsVia used db g.Table).1 - g.AccompanyingGuests) - 1)) :
    addGuestVia srv used db g now =
      (none,
        { db with guestlist :=
            db.guestlist ++ [⟨n, g.Table, a, srv.insertTime now, false⟩] }) := by
  have hdup : db.guestlist.any (nameMatches srv n) = false := by
    rw [List.any_eq_false]
    intro r hr
    rw [nameMatches_iff]
    exact hfresh r hr
  have hfk : db.venue.any (fun t => t.table_number == g.Table) = true := by
    rw [List.any_eq_true]
    obtain ⟨T, hT1, hT2⟩ := hT
    exact ⟨T, hT1, by simp [hT2]⟩
  have hlt : ¬ wrap64 (wrap64 ((getFreeSeatsVia used db g.Table).1 - g.AccompanyingGuests)
      - 1) < 0 := by omega
  simp only [addGuestVia, herr, Store.insertGuest, hn, ha, hdup, hfk]
  simp [hlt]

/-- C6, as stated, fails.  Without strict mode the registration of A with
party size -1 succeeds and the row holds 0 accompanying guests, not -1; and
the registration of a name of 65 characters succeeds with the name cut to
64 characters, the removal of the name then matches no row, and the second
registration is refused as a duplicate. -/
theorem reregistration_differs :
    addGuest serverNull db4Lax { Name := "A", Table := 1, AccompanyingGuests := -1 } "t" =
      (none, { db4Lax with guestlist := [⟨"A", 1, 0, none, false⟩] }) ∧
    addGuest serverNull db4Lax { Name := longName, Table := 1, AccompanyingGuests := 1 } "t" =
      (none, { db4Lax with guestlist := [⟨longNameCut, 1, 1, none, false⟩] }) ∧
    deleteGuest serverNull { db4Lax with guestlist := [⟨longNameCut, 1, 1, none, false⟩] }
        longName =
      (none, { db4Lax with guestlist := [⟨longNameCut, 1, 1, none, false⟩] }) ∧
    addGuest serverNull { db4Lax with guestlist := [⟨longNameCut, 1, 1, none, false⟩] }
        { Name := longName, Table := 1, AccompanyingGuests := 1 } "t" =
      (some .duplicateEntry,
        { db4Lax with guestlist := [⟨longNameCut, 1, 1, none, false⟩] }) := by
  decide

/-- C6, amended.  Name reuse after departure, for a name that fits the
`guest_name` column and a party size a with 0 <= a <= 4294967295 (the values
the columns store as written): when the registration returns no error, the
ledger is the old one followed by one row with the name, the table, party
size a and arrived = false; removing the guest gives back the store from
before the registration; and registering the same guest again, at any
time, returns no error and yields the same row after the old ledger (on a
server that fills `time_arrived` the row carries the time of its INSERT). -/
theorem register_remove_register (srv : Server) (db : Store) (g : Guest) (now later : String)
    (hok : (addGuest srv db g now).1 = none) (hfit : nameFits g.Name = true)
    (ha : 0 ≤ g.AccompanyingGuests ∧ g.AccompanyingGuests ≤ maxUnsigned) :
    addGuest srv db g now =
      (none,
        { db with guestlist := db.guestlist ++
            [⟨g.Name, g.Table, g.AccompanyingGuests, srv.insertTime now, false⟩] }) ∧
    deleteGuest srv (addGuest srv db g now).2 g.Name = (none, db) ∧
    addGuest srv (deleteGuest srv (addGuest srv db g now).2 g.Name).2 g later =
      (none,
        { db with guestlist := db.guestlist ++
            [⟨g.Name, g.Table, g.AccompanyingGuests, srv.insertTime later, false⟩] }) := by
  rcases addGuestVia_result srv db.sumUsedAt db g now with
    ⟨e, he⟩ | ⟨n, a, hn, hs, hfresh, hT, herr, hfree, hres⟩
  · rw [addGuestVia_store] at he
    rw [he] at hok; cases hok
  · rw [addGuestVia_store] at hres
    have hn2 := storeName_of_fits srv db.strict_mode hfit
    rw [hn2] at hn
    cases hn
    have hs2 := storeUnsigned_of_range db.strict_mode ha.1 ha.2
    rw [hs2] at hs
    cases hs
    have hdel : deleteGuest srv (addGuest srv db g now).2 g.Name = (none, db) := by
      rw [hres]
      simp only [deleteGuest, Store.deleteNamed, List.filter_append,
        filter_of_absent srv g.Name db.guestlist hfresh]
      simp [nameMatches]
    refine ⟨hres, hdel, ?_⟩
    rw [hdel, ← addGuestVia_store]
    exact addGuestVia_success srv db.sumUsedAt db g g.Name g.AccompanyingGuests later hn2 hs2
      hfresh hT herr hfree

/-- Witness of C6 (amended): TestGuest1 registers at the test store, leaves, and
registers again. -/
theorem register_remove_register_witness :
    deleteGuest serverNull (addGuest serverNull db12
        { Name := "TestGuest1", Table := 1, AccompanyingGuests := 2 } "t1").2
        "TestGuest1" = (none, db12) ∧
    addGuest serverNull (deleteGuest serverNull (addGuest serverNull db12
        { Name := "TestGuest1", Table := 1, AccompanyingGuests := 2 } "t1").2 "TestGuest1").2
        { Name := "TestGuest1", Table := 1, AccompanyingGuests := 2 } "t2" =
      (none, { db12 with guestlist := [⟨"TestGuest1", 1, 2, none, false⟩] }) :=
  have h := register_remove_register serverNull db12
    { Name := "TestGuest1", Table := 1, AccompanyingGuests := 2 } "t1" "t2" (by decide)
    (by decide) (by decide)
  ⟨h.2.1, h.2.2⟩

/-- C8. With at least one table in the venue, the venue-wide count returns,
without error, the sum of the seats of all tables minus the sum of
accompanying_guests + 1 over all guest rows; with an empty ledger that is
the sum of the seats. -/
theorem free_seats_total_value (db : Store) (table : Int) (hv : db.venue ≠ []) :
    getFreeSeats db table true =
      ((db.venue.map (fun t => t.seats)).sum -
        (db.guestlist.map (fun g => g.accompanying_guests + 1)).sum, none) ∧
    (db.guestlist = [] →
      getFreeSeats db table true = ((db.venue.map (fun t => t.seats)).sum, none)) := by
  have hsum : db.sumSeats = .value (some (db.venue.map (fun t => t.seats)).sum) := by
    cases hvenue : db.venue with
    | nil => exact absurd hvenue hv
    | cons T Ts => simp [Store.sumSeats, sqlSum, hvenue]
  have hmain : getFreeSeats db table true =
      ((db.venue.map (fun t => t.seats)).sum -
        (db.guestlist.map (fun g => g.accompanying_guests + 1)).sum, none) := by
    simp only [getFreeSeats, if_true, hsum, Store.sumUsed, getFreeSeatsFrom_sum]
  refine ⟨hmain, ?_⟩
  intro hempty
  rw [hmain, hempty]
  simp

/-- Witness of C8: test `TestHandlerSeatsEmpty`, 36 free seats with three tables of 12
seats and 22 after guests with parties of 4 and 8 are added. -/
theorem free_seats_total_value_witness :
    getFreeSeats db12 0 true = (36, none) ∧ getFreeSeats db12Two 0 true = (22, none) :=
  ⟨(free_seats_total_value db12 0 (by decide)).1, (free_seats_total_value db12Two 0 (by decide)).1⟩

/-- C9 fails on the code: with no table and no guest, `SUM(seats)` is NULL,
the scan into `freeSeats` fails, and the venue-wide count returns that error
next to the value 0; the handler answers with status 500. -/
theorem free_seats_total_empty_venue :
    getFreeSeats dbEmpty 0 true = (0, some .nullToInt) ∧
    handlerSeatsEmpty dbEmpty = (500, none) := by
  decide

/-- C10. The free seats of one table: when no table has the number the call
fails with "no rows"; when the table exists it returns, without error, the
seats of the table minus the sum of accompanying_guests + 1 over the guest
rows of that table, which is the seats of the table when no guest row
references it. -/
theorem getFreeSeats_of_table (db : Store) (t : Int) :
    ((∀ T ∈ db.venue, T.table_number ≠ t) →
      getFreeSeats db t false = (0, some .errNoRows)) ∧
    (∀ T ∈ db.venue, (db.venue.map (fun T => T.table_number)).Nodup → T.table_number = t →
      getFreeSeats db t false = (T.seats - occupiedSeats db t, none) ∧
      ((∀ g ∈ db.guestlist, g.table_number ≠ t) →
        getFreeSeats db t false = (T.seats, none))) := by
  refine ⟨getFreeSeats_no_table db t, ?_⟩
  intro T hT hpk hTn
  have hfs := getFreeSeats_table db T hpk hT
  rw [hTn] at hfs
  refine ⟨hfs, ?_⟩
  intro hnone
  rw [hfs]
  have hz : occupiedSeats db t = 0 := occupied_eq_zero db.guestlist t hnone
  rw [hz]
  simp

/-- Witness of C10: in the store of test `TestHandlerGuestArrives` table 2 has 7 free
seats and there is no table 9; in the store without guests table 2 has its 12 seats. -/
theorem getFreeSeats_of_table_witness :
    getFreeSeats db12Three 9 false = (0, some .errNoRows) ∧
    getFreeSeats db12Three 2 false = (7, none) ∧
    getFreeSeats db12 2 false = (12, none) :=
  ⟨(getFreeSeats_of_table db12Three 9).1 (by decide),
   ((getFreeSeats_of_table db12Three 2).2 ⟨2, 12⟩ (by decide) (by decide) rfl).1,
   ((getFreeSeats_of_table db12 2).2 ⟨2, 12⟩ (by decide) (by decide) rfl).2 (by decide)⟩

/-! ## Arrival of an unknown guest -/

theorem updateGuest_unknown (srv : Server) (db : Store) (g : Guest) (now : String)
    (h : ∀ r ∈ db.guestlist, srv.collate r.guest_name ≠ srv.collate g.Name) :
    updateGuest srv db g now = (some .errNoRows, db) := by
  have hf := find?_unnamed srv g.Name db.guestlist h
  simp [updateGuest, hf]

/-- C11, as stated, fails: for a name without a guest row the handler of
`PUT /guests/{name}` answers 409, not 404; `updateGuest` returns "no rows"
and the store is unchanged. -/
theorem arrival_unknown_guest_conflict_status :
    (∀ r ∈ db12Three.guestlist, r.guest_name ≠ "Nobody") ∧
    (∀ r ∈ db12Three.guestlist,
      serverNull.collate r.guest_name ≠ serverNull.collate "Nobody") ∧
    updateGuest serverNull db12Three { Name := "Nobody", AccompanyingGuests := 1 } "t" =
      (some .errNoRows, db12Three) ∧
    handlerGuestArrives serverNull db12Three "Nobody" (some { AccompanyingGuests := 1 }) "t" =
      (409, db12Three) ∧
    (handlerGuestArrives serverNull db12Three "Nobody"
      (some { AccompanyingGuests := 1 }) "t").1 ≠ 404 := by
  decide

/-- C11, amended. For every state of the store and every name without a
guest row (no row whose name the column holds to be equal to it), the arrival
fails in `updateGuest` with "no rows" (not found) and leaves the store
unchanged; the handler of `PUT /guests/{name}` reports it with status 409, the
status it gives every error of `updateGuest`, the capacity conflict
included. -/
theorem arrival_unknown_guest (srv : Server) (db : Store) (name : String) (g : Guest)
    (now : String)
    (h : ∀ r ∈ db.guestlist, srv.collate r.guest_name ≠ srv.collate name) :
    updateGuest srv db { g with Name := name } now = (some .errNoRows, db) ∧
    handlerGuestArrives srv db name (some g) now = (409, db) ∧
    (∀ (d : Store) (b : Guest) (e : Err) (d1 : Store),
      updateGuest srv d { b with Name := name } now = (some e, d1) →
        handlerGuestArrives srv d name (some b) now = (409, d1)) := by
  have hu := updateGuest_unknown srv db { g with Name := name } now h
  refine ⟨hu, ?_, ?_⟩
  · simp [handlerGuestArrives, hu]
  · intro d b e d1 hd
    simp [handlerGuestArrives, hd]

/-- Witness of C11 (amended): an unknown name at the store of test
`TestHandlerGuestArrives`. -/
theorem arrival_unknown_guest_witness :
    updateGuest serverNull db12Three { Name := "Nobody", AccompanyingGuests := 1 } "t" =
      (some .errNoRows, db12Three) ∧
    handlerGuestArrives serverNull db12Three "Nobody" (some { AccompanyingGuests := 1 }) "t" =
      (409, db12Three) :=
  have h := arrival_unknown_guest serverNull db12Three "Nobody" { AccompanyingGuests := 1 }
    "t" (by decide)
  ⟨h.1, h.2.1⟩

/-! ## The list of arrived guests -/

theorem addGuestVia_arrivedHaveTime (srv : Server) (used : Int → RowResult) (db : Store)
    (g : Guest) (now : String) (h : arrivedHaveTime db) :
    arrivedHaveTime (addGuestVia srv used db g now).2 := by
  rcases addGuestVia_result srv used db g now with
    ⟨e, he⟩ | ⟨n, a, -, -, -, -, -, -, hres⟩
  · rw [he]; exact h
  · rw [hres]
    intro r hr harr
    rcases List.mem_append.mp hr with h1 | h1
    · exact h r h1 harr
    · rw [List.mem_singleton] at h1
      subst h1
      cases harr

theorem updateWhere_arrivedHaveTime (srv : Server) (db : Store) (name : String)
    (set : GuestRow → GuestRow) (hset : ∀ g, (set g).time_arrived ≠ none)
    (h : arrivedHaveTime db) :
    arrivedHaveTime { db with guestlist := updateWhere srv name set db.guestlist } := by
  intro r hr harr
  simp only [updateWhere, List.mem_map] at hr
  obtain ⟨r0, hr0, heq⟩ := hr
  split_ifs at heq
  · rw [← heq]; exact hset r0
  · rw [← heq] at harr ⊢; exact h r0 hr0 harr

theorem updateGuestVia_arrivedHaveTime (srv : Server) (used : Int → RowResult) (db : Store)
    (g : Guest) (now : String) (h : arrivedHaveTime db) :
    arrivedHaveTime (updateGuestVia srv used db g now).2 := by
  rcases updateGuestVia_result srv used db g now with ⟨e, he⟩ | ⟨row, -, -, -, hres⟩ |
    ⟨row, -, a, -, -, -, -, -, hres⟩
  · rw [he]; exact h
  · rw [hres]
    exact updateWhere_arrivedHaveTime srv db g.Name _
      (fun _ => by simp [GuestRow.setArrived]) h
  · rw [hres]
    exact updateWhere_arrivedHaveTime srv db g.Name _
      (fun _ => by simp [GuestRow.setParty]) h

theorem exec_arrivedHaveTime (srv : Server) (db : Store) (op : Op) (h : arrivedHaveTime db) :
    arrivedHaveTime (op.exec srv db).2 := by
  cases op with
  | addTable seats =>
    show arrivedHaveTime (db.insertVenue seats).2
    unfold Store.insertVenue
    cases storeUnsigned db.strict_mode seats with
    | error e => exact h
    | ok s => exact h
  | addGuest g now fault =>
    cases fault with
    | none => exact addGuestVia_arrivedHaveTime srv db.sumUsedAt db g now h
    | some e => exact addGuestVia_arrivedHaveTime srv _ db g now h
  | updateGuest g now fault =>
    cases fault with
    | none => exact updateGuestVia_arrivedHaveTime srv db.sumUsedAt db g now h
    | some e => exact updateGuestVia_arrivedHaveTime srv _ db g now h
  | deleteGuest name =>
    intro r hr harr
    exact h r (List.mem_of_mem_filter hr) harr

theorem run_arrivedHaveTime (srv : Server) (ops : List Op) :
    ∀ (db : Store), arrivedHaveTime db → arrivedHaveTime (run srv db ops) := by
  induction ops with
  | nil => intro db h; exact h
  | cons op ops ih =>
    intro db h; exact ih (op.exec srv db).2 (exec_arrivedHaveTime srv db op h)

theorem getFreeSeatsFrom_second_failed (s : Int) (e : Err) :
    getFreeSeatsFrom (.value (some s)) (.failed e) = (s, none) := rfl

theorem getFreeSeatsFrom_first_failed (e : Err) (second : RowResult) :
    getFreeSeatsFrom (.failed e) second = (0, some e) := rfl

/-- C13 fails on the code: a failure of the occupancy query of
`getFreeSeats` (here a lost connection) is dropped by the workaround.  At a
table of 4 seats with 1 free seat the count comes back as 4 without error; a
registration needing 4 seats, which the working store rejects, is inserted,
and an arrival growing a party from 2 to 5, which the working store
rejects, is written. -/
theorem occupancy_failure_swallowed :
    getFreeSeats db4A 1 false = (1, none) ∧
    getFreeSeatsVia (fun _ => .failed .badConn) db4A 1 = (4, none) ∧
    addGuest serverNull db4A { Name := "B", Table := 1, AccompanyingGuests := 3 } "t" =
      (some .unableToAddGuest, db4A) ∧
    addGuestVia serverNull (fun _ => .failed .badConn) db4A
        { Name := "B", Table := 1, AccompanyingGuests := 3 } "t" =
      (none, { db4A with guestlist :=
        [⟨"A", 1, 2, none, false⟩, ⟨"B", 1, 3, none, false⟩] }) ∧
    updateGuest serverNull db4A { Name := "A", AccompanyingGuests := 5 } "t" =
      (some .unableToAddGuest, db4A) ∧
    updateGuestVia serverNull (fun _ => .failed .badConn) db4A
        { Name := "A", AccompanyingGuests := 5 } "t" =
      (none, { db4A with guestlist := [⟨"A", 1, 5, some "t", true⟩] }) := by
  decide

/-! ## The venue-wide count against the per-table counts -/

theorem sum_map_sub_int {α : Type} (f g : α → Int) (l : List α) :
    (l.map (fun x => f x - g x)).sum = (l.map f).sum - (l.map g).sum := by
  induction l with
  | nil => simp
  | cons x xs ih => simp only [List.map_cons, List.sum_cons, ih]; omega

theorem sum_map_add_int {α : Type} (f g : α → Int) (l : List α) :
    (l.map (fun x => f x + g x)).sum = (l.map f).sum + (l.map g).sum := by
  induction l with
  | nil => simp
  | cons x xs ih => simp only [List.map_cons, List.sum_cons, ih]; omega

theorem sum_ite_absent (n c : Int) (venue : List Table)
    (h : ∀ T ∈ venue, T.table_number ≠ n) :
    (venue.map (fun T => if n = T.table_number then c else 0)).sum = 0 := by
  induction venue with
  | nil => rfl
  | cons T Ts ih =>
    have h1 : ¬ n = T.table_number := fun heq => h T (List.mem_cons_self _ _) heq.symm
    simp only [List.map_cons, List.sum_cons, if_neg h1,
      ih (fun U hU => h U (List.mem_cons_of_mem _ hU))]
    rfl

theorem sum_ite_unique (n c : Int) (venue : List Table)
    (hpk : (venue.map (fun T => T.table_number)).Nodup)
    (hex : ∃ T ∈ venue, T.table_number = n) :
    (venue.map (fun T => if n = T.table_number then c else 0)).sum = c := by
  induction venue with
  | nil => obtain ⟨T, hT, -⟩ := hex; cases hT
  | cons T Ts ih =>
    rw [List.map_cons, List.nodup_cons] at hpk
    by_cases hT : n = T.table_number
    · have habs : ∀ U ∈ Ts, U.table_number ≠ n := by
        intro U hU heq
        apply hpk.1
        rw [← hT, ← heq]
        exact List.mem_map_of_mem (fun T => T.table_number) hU
      simp only [List.map_cons, List.sum_cons, if_pos hT, sum_ite_absent n c Ts habs]
      omega
    · have hex2 : ∃ U ∈ Ts, U.table_number = n := by
        obtain ⟨U, hU, hUn⟩ := hex
        rcases List.mem_cons.mp hU with h1 | h1
        · subst h1; exact absurd hUn.symm hT
        · exact ⟨U, h1, hUn⟩
      simp only [List.map_cons, List.sum_cons, if_neg hT, ih hpk.2 hex2]
      omega

theorem sum_occupied_over_venue (venue : List Table)
    (hpk : (venue.map (fun T => T.table_number)).Nodup) (rows : List GuestRow)
    (hfk : ∀ g ∈ rows, ∃ T ∈ venue, T.table_number = g.table_number) :
    (venue.map (fun T => occupied rows T.table_number)).sum =
      (rows.map (fun g => g.accompanying_guests + 1)).sum := by
  induction rows with
  | nil => simp [occupied_nil]
  | cons r rs ih =>
    have hfun : (fun T : Table => occupied (r :: rs) T.table_number) =
        (fun T : Table =>
          (if r.table_number = T.table_number then r.accompanying_guests + 1 else 0) +
            occupied rs T.table_number) := by
      funext T
      exact occupied_cons r rs T.table_number
    rw [hfun, sum_map_add_int,
      sum_ite_unique r.table_number _ venue hpk (hfk r (List.mem_cons_self _ _)),
      ih (fun g hg => hfk g (List.mem_cons_of_mem _ hg))]
    simp

theorem getFreeSeats_total (db : Store) (table : Int) (hv : db.venue ≠ []) :
    getFreeSeats db table true =
      ((db.venue.map (fun t => t.seats)).sum -
        (db.guestlist.map (fun g => g.accompanying_guests + 1)).sum, none) := by
  have hsum : db.sumSeats = .value (some (db.venue.map (fun t => t.seats)).sum) := by
    cases hvenue : db.venue with
    | nil => exact absurd hvenue hv
    | cons T Ts => simp [Store.sumSeats, sqlSum, hvenue]
  simp only [getFreeSeats, if_true, hsum, Store.sumUsed, getFreeSeatsFrom_sum]

/-- C14. In every state of the store with at least one table, distinct table
numbers, and every guest row referencing an existing table, the venue-wide
count of `getFreeSeats` (all = true) returns without error the sum, over
the tables of the venue, of the per-table counts (all = false), each of
which is returned without error; this covers an empty ledger and tables
without guests. -/
theorem total_equals_sum_of_tables (db : Store) (table : Int) (hv : db.venue ≠ [])
    (hpk : (db.venue.map (fun T => T.table_number)).Nodup)
    (hfk : ∀ g ∈ db.guestlist, ∃ T ∈ db.venue, T.table_number = g.table_number) :
    getFreeSeats db table true =
      ((db.venue.map (fun T => (getFreeSeats db T.table_number false).1)).sum, none) ∧
    ∀ T ∈ db.venue, (getFreeSeats db T.table_number false).2 = none := by
  have hper : ∀ T ∈ db.venue, getFreeSeats db T.table_number false =
      (T.seats - occupiedSeats db T.table_number, none) :=
    fun T hT => getFreeSeats_table db T hpk hT
  refine ⟨?_, fun T hT => by rw [hper T hT]⟩
  have hmap : db.venue.map (fun T => (getFreeSeats db T.table_number false).1) =
      db.venue.map (fun T => T.seats - occupied db.guestlist T.table_number) := by
    apply List.map_congr_left
    intro T hT
    rw [hper T hT]
    rfl
  rw [getFreeSeats_total db table hv, hmap, sum_map_sub_int,
    sum_occupied_over_venue db.venue hpk db.guestlist hfk]

/-- Witness of C14: the test store with three guests (36 - 15 = 11 + 7 + 3),
and the test store without guests. -/
theorem total_equals_sum_of_tables_witness :
    getFreeSeats db12Three 0 true = (11 + 7 + 3, none) ∧
    getFreeSeats db12 0 true = (12 + 12 + 12, none) :=
  ⟨(total_equals_sum_of_tables db12Three 0 (by decide) (by decide) (by decide)).1,
   (total_equals_sum_of_tables db12 0 (by decide) (by decide) (by decide)).1⟩

end GolangAPI
